import Mathlib

/-!
SUDS access layer: caching decisions and comment-count batching.

Shallow embedding of `src/javascripts/suds.js` (Financial-Times/o-comment-api).

* JavaScript values are the inductive type `JSVal`; objects are lists of own
  enumerable data properties in enumeration order.
* The collaborators of the module are explicit inputs: the configuration and the
  session (`Env`), the cache (`Cache`), the answer of the transport to a `jsonp`
  call (`Option Response`, `none` when the transport never answers) and the report
  of `functionSync.parallel` to its completion handler.
* An operation returns an `Outcome`: the cache after the call, the ordered trace of
  observable effects (`jsonp` calls, cache writes, callback invocations) and the
  message of the exception it threw, if any.
-/

namespace Suds

/-- JavaScript values. Numbers are the integer-valued ones; `obj` lists the own
enumerable data properties of a plain object in enumeration order; `func` is a
callable without user-assigned properties, `arity` being its `length` (the number of
parameters it declares); `error msg` is `new Error(msg)`. -/
inductive JSVal where
  | undefined
  | null
  | bool (b : Bool)
  | num (n : Int)
  | str (s : String)
  | arr (items : List JSVal)
  | obj (fields : List (String × JSVal))
  | func (id : Nat) (arity : Nat)
  | error (msg : String)

namespace JSVal

mutual
/-- Structural equality test on values. -/
def decEq : (a b : JSVal) → Decidable (a = b)
  | undefined, b => by
      cases b <;> first | exact isTrue rfl | exact isFalse (fun h => by cases h)
  | null, b => by
      cases b <;> first | exact isTrue rfl | exact isFalse (fun h => by cases h)
  | bool x, b => by
      cases b with
      | bool y => exact decidable_of_iff (x = y) ⟨fun h => h ▸ rfl, fun h => by cases h; rfl⟩
      | _ => exact isFalse (fun h => by cases h)
  | num x, b => by
      cases b with
      | num y => exact decidable_of_iff (x = y) ⟨fun h => h ▸ rfl, fun h => by cases h; rfl⟩
      | _ => exact isFalse (fun h => by cases h)
  | str x, b => by
      cases b with
      | str y => exact decidable_of_iff (x = y) ⟨fun h => h ▸ rfl, fun h => by cases h; rfl⟩
      | _ => exact isFalse (fun h => by cases h)
  | func x n, b => by
      cases b with
      | func y m =>
          exact decidable_of_iff (x = y ∧ n = m)
            ⟨fun h => by rw [h.1, h.2], fun h => by cases h; exact ⟨rfl, rfl⟩⟩
      | _ => exact isFalse (fun h => by cases h)
  | error x, b => by
      cases b with
      | error y => exact decidable_of_iff (x = y) ⟨fun h => h ▸ rfl, fun h => by cases h; rfl⟩
      | _ => exact isFalse (fun h => by cases h)
  | arr xs, arr ys =>
      match decEqList xs ys with
      | isTrue h => isTrue (h ▸ rfl)
      | isFalse h => isFalse (fun e => by cases e; exact h rfl)
  | obj xs, obj ys =>
      match decEqFields xs ys with
      | isTrue h => isTrue (h ▸ rfl)
      | isFalse h => isFalse (fun e => by cases e; exact h rfl)
  | arr _, undefined | arr _, null | arr _, bool _ | arr _, num _ | arr _, str _
  | arr _, obj _ | arr _, func _ _ | arr _, error _ => isFalse (fun h => by cases h)
  | obj _, undefined | obj _, null | obj _, bool _ | obj _, num _ | obj _, str _
  | obj _, arr _ | obj _, func _ _ | obj _, error _ => isFalse (fun h => by cases h)
/-- Structural equality test on lists of values. -/
def decEqList : (xs ys : List JSVal) → Decidable (xs = ys)
  | [], [] => isTrue rfl
  | [], _ :: _ => isFalse (fun h => by cases h)
  | _ :: _, [] => isFalse (fun h => by cases h)
  | x :: xs, y :: ys =>
      match decEq x y, decEqList xs ys with
      | isTrue h, isTrue t => isTrue (by rw [h, t])
      | isFalse h, _ => isFalse (fun e => by cases e; exact h rfl)
      | _, isFalse t => isFalse (fun e => by cases e; exact t rfl)
/-- Structural equality test on property lists. -/
def decEqFields : (xs ys : List (String × JSVal)) → Decidable (xs = ys)
  | [], [] => isTrue rfl
  | [], _ :: _ => isFalse (fun h => by cases h)
  | _ :: _, [] => isFalse (fun h => by cases h)
  | (k, x) :: xs, (l, y) :: ys =>
      match decEq x y, decEqFields xs ys with
      | isTrue h, isTrue t =>
          if hk : k = l then isTrue (by rw [h, t, hk])
          else isFalse (fun e => by cases e; exact hk rfl)
      | isFalse h, _ => isFalse (fun e => by cases e; exact h rfl)
      | _, isFalse t => isFalse (fun e => by cases e; exact t rfl)
end

instance : DecidableEq JSVal := decEq

/-- JavaScript truthiness (`if (v)`, `!v`, `a && b`). -/
def truthy : JSVal → Bool
  | undefined => false
  | null => false
  | bool b => b
  | num n => n != 0
  | str s => s != ""
  | arr _ => true
  | obj _ => true
  | func _ _ => true
  | error _ => true

/-- The test `typeof v === 'function'`. -/
def isFunction : JSVal → Bool
  | func _ _ => true
  | _ => false

/-- The test `typeof v === 'undefined'`. -/
def isUndefined : JSVal → Bool
  | undefined => true
  | _ => false

/-- The test `v === true`. -/
def strictTrue : JSVal → Bool
  | bool true => true
  | _ => false

/-- Whether `v` is `null` or `undefined`: reading a property of such a value throws. -/
def isNullish : JSVal → Bool
  | undefined => true
  | null => true
  | _ => false

/-- The `length` of a JavaScript string: its number of UTF-16 code units. -/
def jsLength (s : String) : Nat :=
  (s.toList.map (fun c => if c.toNat < 65536 then 1 else 2)).sum

/-- Property read `v.k` for a value `v` that is not `null` or `undefined` (for those
the read throws, and every call site below that can reach them tests `isNullish`
first). Only data properties are modelled: own properties of plain objects, `length`
of arrays, strings and functions, `message` of errors. -/
def getField (v : JSVal) (k : String) : JSVal :=
  match v with
  | obj fields => (fields.lookup k).getD undefined
  | arr items => if k = "length" then num items.length else undefined
  | str s => if k = "length" then num (jsLength s) else undefined
  | func _ arity => if k = "length" then num arity else undefined
  | error msg => if k = "message" then str msg else undefined
  | _ => undefined

/-- The call `v.hasOwnProperty(k)` on a truthy value, for the data property names
the module asks about (none of them is an own property of a primitive, an array, a
function or an error). -/
def hasOwnProperty (v : JSVal) (k : String) : Bool :=
  match v with
  | obj fields => (fields.lookup k).isSome
  | _ => false

/-- Replace the value of property `k` in a property list, or append it. -/
def setFieldList (fields : List (String × JSVal)) (k : String) (x : JSVal) :
    List (String × JSVal) :=
  match fields with
  | [] => [(k, x)]
  | (l, y) :: rest => if l = k then (l, x) :: rest else (l, y) :: setFieldList rest k x

/-- Property write `v.k = x` on an object. The file has no strict-mode directive, so
the write is ignored on a primitive; named properties of arrays, functions and errors
are outside the model. -/
def setField (v : JSVal) (k : String) (x : JSVal) : JSVal :=
  match v with
  | obj fields => obj (setFieldList fields k x)
  | other => other

/-- The values `Object.keys(v).map(key => v[key])` of a truthy `v`: the property
values of an object, the items of an array, the characters of a string, and nothing
for a number, a boolean, a function or an error. -/
def ownValues (v : JSVal) : List JSVal :=
  match v with
  | obj fields => fields.map Prod.snd
  | arr items => items
  | str s => s.toList.map (fun c => str (String.singleton c))
  | _ => []

end JSVal

open JSVal

/-- Configuration and session collaborators, read at every call. -/
structure Env where
  /-- The value of `envConfig.get('cache')`. -/
  cacheSetting : JSVal
  /-- The value of `oCommentUtilities.ftUser.getSession()`. -/
  session : JSVal
  /-- The value of `envConfig.get().suds.baseUrl`. -/
  baseUrl : String
  /-- The value of `envConfig.get().suds.endpoints.livefyre.init`. -/
  initEndpoint : String
  /-- The value of `envConfig.get().suds.endpoints.livefyre.commentCount`. -/
  commentCountEndpoint : String
  /-- The value of `envConfig.get().suds.endpoints.livefyre.commentCounts`. -/
  commentCountsEndpoint : String
  /-- The value of `envConfig.get().suds.endpoints.user.getAuth`. -/
  getAuthEndpoint : String
  /-- The value of `envConfig.get().suds.endpoints.user.updateUser`. -/
  updateUserEndpoint : String
  /-- The length of `articleId.toString()` for an id that is not `null` or
  `undefined` (for those the call throws, which `getCommentCounts` tests first). -/
  toStringLength : JSVal → Nat
  /-- The function `oCommentUtilities.merge`, applied to the list of its arguments. -/
  merge : List JSVal → JSVal

/-- Modelled from the spec: `cache.js` is not among the sources. The cache "stores two
kinds of entries, per-article init-payloads and a single current auth-payload, with
get/set/remove operations". `init` holds at most one entry per article id, `auth` is
the single slot. -/
structure Cache where
  init : List (JSVal × JSVal)
  auth : Option JSVal
  deriving DecidableEq

namespace Cache

/-- Modelled from the spec: `Cache.getInit(articleId) -> InitResult|null`. -/
def getInit (c : Cache) (articleId : JSVal) : JSVal :=
  (c.init.lookup articleId).getD JSVal.null

/-- Modelled from the spec: `Cache.cacheInit(articleId, InitResult)`, which creates the
entry of the article or overwrites it. -/
def cacheInit (c : Cache) (articleId initObj : JSVal) : Cache :=
  { c with init := (articleId, initObj) :: c.init.filter (fun e => e.1 != articleId) }

/-- Modelled from the spec: `Cache.getAuth(sessionId) -> AuthResult|null`, a lookup
"conceptually session-scoped but implemented as a single-slot cache". -/
def getAuth (c : Cache) (_sessionId : JSVal) : JSVal :=
  c.auth.getD JSVal.null

/-- Modelled from the spec: `Cache.cacheAuth(AuthResult)`. -/
def cacheAuth (c : Cache) (authObj : JSVal) : Cache :=
  { c with auth := some authObj }

/-- Modelled from the spec: `Cache.removeAuth()`. -/
def removeAuth (c : Cache) : Cache :=
  { c with auth := none }

end Cache

/-- Observable effects of an operation, in the order they happen. -/
inductive Event where
  /-- The call `oCommentUtilities.jsonp({url, data}, handler)`. -/
  | jsonp (url : String) (data : JSVal)
  /-- An invocation `fn(args...)` of the caller's callback. -/
  | callback (fn : JSVal) (args : List JSVal)
  /-- The call `cache.cacheInit(articleId, init)`. -/
  | cacheInit (articleId init : JSVal)
  /-- The call `cache.cacheAuth(auth)`. -/
  | cacheAuth (auth : JSVal)
  /-- The call `cache.removeAuth()`. -/
  | removeAuth
  deriving DecidableEq

namespace Event

/-- Whether the event is a remote call. -/
def isJsonp : Event → Bool
  | jsonp _ _ => true
  | _ => false

/-- Whether the event is an invocation of the callback. -/
def isCallback : Event → Bool
  | callback _ _ => true
  | _ => false

/-- Whether the event is a write to the cache (set or remove). -/
def isCacheWrite : Event → Bool
  | cacheInit _ _ => true
  | cacheAuth _ => true
  | removeAuth => true
  | _ => false

/-- Whether the event is a write of an init entry. -/
def isCacheInit : Event → Bool
  | cacheInit _ _ => true
  | _ => false

end Event

/-- What the transport (or the fan-out) passes to its completion handler. -/
structure Response where
  err : JSVal
  data : JSVal

/-- The cache and the effects so far, threaded through the statements of an operation. -/
structure State where
  cache : Cache
  trace : List Event

namespace State

/-- The statement `fn(args...)`. -/
def invoke (s : State) (fn : JSVal) (args : List JSVal) : State :=
  { s with trace := s.trace ++ [Event.callback fn args] }

/-- The statement `oCommentUtilities.jsonp({url, data}, handler)`. -/
def jsonp (s : State) (url : String) (data : JSVal) : State :=
  { s with trace := s.trace ++ [Event.jsonp url data] }

/-- The statement `cache.cacheInit(articleId, init)`. -/
def cacheInit (s : State) (articleId init : JSVal) : State :=
  { cache := s.cache.cacheInit articleId init,
    trace := s.trace ++ [Event.cacheInit articleId init] }

/-- The statement `cache.cacheAuth(auth)`. -/
def cacheAuth (s : State) (auth : JSVal) : State :=
  { cache := s.cache.cacheAuth auth, trace := s.trace ++ [Event.cacheAuth auth] }

/-- The statement `cache.removeAuth()`. -/
def removeAuth (s : State) : State :=
  { cache := s.cache.removeAuth, trace := s.trace ++ [Event.removeAuth] }

end State

/-- The result of running an operation. -/
structure Outcome where
  cache : Cache
  trace : List Event
  thrown : Option String
  deriving DecidableEq

namespace Outcome

/-- The operation ran to its end from state `s`. -/
def done (s : State) : Outcome :=
  { cache := s.cache, trace := s.trace, thrown := none }

/-- The operation threw `msg` in state `s`. -/
def throw (s : State) (msg : String) : Outcome :=
  { cache := s.cache, trace := s.trace, thrown := some msg }

/-- The remote calls issued, in order. -/
def remoteCalls (o : Outcome) : List Event :=
  o.trace.filter Event.isJsonp

/-- The callback invocations, in order. -/
def callbacks (o : Outcome) : List Event :=
  o.trace.filter Event.isCallback

/-- The cache writes performed, in order. -/
def cacheWrites (o : Outcome) : List Event :=
  o.trace.filter Event.isCacheWrite

end Outcome

/-- The flag `cacheEnabled`: `envConfig.get('cache') === true && sessionId`. -/
def cacheEnabled (env : Env) : Bool :=
  strictTrue env.cacheSetting && truthy env.session

/-! ## livefyre.getInitConfig -/

/-- The payload `dataToBeSent` of `livefyre.getInitConfig`. -/
def initDataToBeSent (env : Env) (conf : JSVal) : JSVal :=
  JSVal.obj
    ([("title", getField conf "title"), ("url", getField conf "url"),
      ("articleId", getField conf "articleId"), ("el", getField conf "elId")]
      ++ (if truthy env.session then [("sessionId", env.session)] else [])
      ++ (if !isUndefined (getField conf "stream_type")
            then [("stream_type", getField conf "stream_type")] else [])
      ++ (if !isUndefined (getField conf "section")
            then [("section", getField conf "section")] else [])
      ++ (if !isUndefined (getField conf "tags")
            then [("tags", getField conf "tags")] else []))

/-- The completion handler `function (err, data)` passed to `jsonp` by
`livefyre.getInitConfig`. -/
def initHandler (env : Env) (conf callback : JSVal) (s : State) (r : Response) : State :=
  if truthy r.err then
    s.invoke callback [r.err, JSVal.null]
  else if truthy r.data && truthy (getField r.data "init") then
    let init := getField r.data "init"
    let s1 :=
      if !strictTrue (getField init "unclassifiedArticle")
          && !strictTrue (getField init "notAllowedToCreateCollection")
          && truthy (getField init "collectionMeta") && cacheEnabled env then
        let s2 := s.cacheInit (getField conf "articleId") init
        if truthy (getField r.data "auth")
            && truthy (getField (getField r.data "auth") "token") then
          s2.cacheAuth (getField r.data "auth")
        else
          s2.removeAuth
      else s
    s1.invoke callback [JSVal.null, init]
  else
    s.invoke callback [JSVal.error "No data received from SUDS.", JSVal.null]

/-- The inner function `makeCall` of `livefyre.getInitConfig`: one `jsonp` call, then
the handler on the answer of the transport, if it answers. -/
def initMakeCall (env : Env) (conf callback : JSVal) (s : State)
    (response : Option Response) : State :=
  let s1 := s.jsonp (env.baseUrl ++ env.initEndpoint) (initDataToBeSent env conf)
  match response with
  | none => s1
  | some r => initHandler env conf callback s1 r

/-- The validation statements of `livefyre.getInitConfig`: one callback invocation per
missing own field, without leaving the function. -/
def initValidate (conf callback : JSVal) (s : State) : State :=
  let s1 := if !hasOwnProperty conf "articleId"
    then s.invoke callback [JSVal.error "Article ID not provided"] else s
  let s2 := if !hasOwnProperty conf "url"
    then s1.invoke callback [JSVal.error "Article URL not provided"] else s1
  let s3 := if !hasOwnProperty conf "elId"
    then s2.invoke callback [JSVal.error "Element ID not provided"] else s2
  if !hasOwnProperty conf "title"
    then s3.invoke callback [JSVal.error "Article title not provided"] else s3

/-- The function `livefyre.getInitConfig(conf, callback)`. -/
def getInitConfig (env : Env) (cache : Cache) (conf callback : JSVal)
    (response : Option Response) : Outcome :=
  if !isFunction callback then
    Outcome.throw ⟨cache, []⟩ "Callbacks not provided"
  else if !truthy conf then
    Outcome.throw ⟨cache, []⟩ "No configuration parameters provided"
  else
    let s := initValidate conf callback ⟨cache, []⟩
    if !cacheEnabled env then
      Outcome.done (initMakeCall env conf callback s response)
    else
      let initCache := s.cache.getInit (getField conf "articleId")
      if strictTrue (getField conf "force") || !truthy initCache then
        Outcome.done (initMakeCall env conf callback s response)
      else
        Outcome.done
          (s.invoke callback [JSVal.null, setField initCache "el" (getField conf "elId")])

/-! ## user.getAuth -/

/-- The payload `dataToBeSent` of `user.getAuth`. -/
def authDataToBeSent (env : Env) : JSVal :=
  JSVal.obj (if truthy env.session then [("sessionId", env.session)] else [])

/-- The completion handler `function (err, data)` passed to `jsonp` by `user.getAuth`. -/
def authHandler (env : Env) (callback : JSVal) (s : State) (r : Response) : State :=
  if truthy r.err then
    s.invoke callback [r.err, JSVal.null]
  else
    let s1 :=
      if cacheEnabled env then
        if truthy r.data && truthy (getField r.data "token") then
          s.cacheAuth r.data
        else
          s.removeAuth
      else s
    s1.invoke callback [JSVal.null, r.data]

/-- The inner function `makeCall` of `user.getAuth`. -/
def authMakeCall (env : Env) (callback : JSVal) (s : State)
    (response : Option Response) : State :=
  let s1 := s.jsonp (env.baseUrl ++ env.getAuthEndpoint) (authDataToBeSent env)
  match response with
  | none => s1
  | some r => authHandler env callback s1 r

/-- The function `user.getAuth(confOrCallback, callback)`. -/
def getAuth (env : Env) (cache : Cache) (confOrCallback callbackArg : JSVal)
    (response : Option Response) : Outcome :=
  let callback := if isFunction confOrCallback then confOrCallback else callbackArg
  if !isFunction callback then
    Outcome.throw ⟨cache, []⟩ "Callback not provided."
  else
    let s : State := ⟨cache, []⟩
    if !cacheEnabled env then
      Outcome.done (authMakeCall env callback s response)
    else
      let authCache := s.cache.getAuth env.session
      if !truthy authCache then
        Outcome.done (authMakeCall env callback s response)
      else if isNullish confOrCallback then
        Outcome.throw s "TypeError: cannot read property force"
      else if strictTrue (getField confOrCallback "force") then
        Outcome.done (authMakeCall env callback s response)
      else
        Outcome.done (s.invoke callback [JSVal.null, authCache])

/-! ## livefyre.getCommentCounts -/

/-- An element of `articleIdBundles`. -/
structure Bundle where
  size : Nat
  articles : List JSVal
  deriving DecidableEq

/-- Apply `f` to the last element of a list: the statements on
`articleIdBundles[articleIdBundles.length - 1]`. -/
def modifyLast (f : Bundle → Bundle) : List Bundle → List Bundle
  | [] => []
  | [b] => [f b]
  | b :: c :: rest => b :: modifyLast f (c :: rest)

/-- The size of the last bundle, if there is one. -/
def lastSize : List Bundle → Option Nat
  | [] => none
  | [b] => some b.size
  | _ :: c :: rest => lastSize (c :: rest)

/-- The body of the `articleIds.forEach` loop: open a bundle when there is none or the
last one has reached size 1000, then append the id to the last bundle. -/
def addArticleId (strLen : JSVal → Nat) (baseLength : Nat) (articleIdBundles : List Bundle)
    (articleId : JSVal) : List Bundle :=
  let opened :=
    match lastSize articleIdBundles with
    | none => articleIdBundles ++ [{ size := baseLength, articles := [] }]
    | some size =>
        if size ≥ 1000 then articleIdBundles ++ [{ size := baseLength, articles := [] }]
        else articleIdBundles
  modifyLast
    (fun b => { size := b.size + strLen articleId, articles := b.articles ++ [articleId] })
    opened

/-- The array `articleIdBundles` after the `articleIds.forEach` loop. -/
def bundleArticleIds (strLen : JSVal → Nat) (baseLength : Nat) (articleIds : List JSVal) :
    List Bundle :=
  articleIds.foldl (addArticleId strLen baseLength) []

/-- The invariant of the `articleIds.forEach` loop, with `processed` the ids visited so far. -/
def BundlesInv (strLen : JSVal → Nat) (baseLength : Nat) (bundles : List Bundle)
    (processed : List JSVal) : Prop :=
  (∀ b ∈ bundles, b.articles ≠ [])
  ∧ (bundles.map Bundle.articles).flatten = processed
  ∧ (∀ b ∈ bundles, b.size = baseLength + (b.articles.map strLen).sum)
  ∧ (∀ b ∈ bundles.dropLast, 1000 ≤ b.size)
  ∧ (∀ b ∈ bundles, 1 < b.articles.length →
      baseLength + (b.articles.dropLast.map strLen).sum < 1000)

/-- The completion handler `(err, results) => ...` passed to `functionSync.parallel`. -/
def countsHandler (env : Env) (callback : JSVal) (s : State) (report : Response) : State :=
  if truthy report.err then
    s.invoke callback [report.err]
  else if truthy report.data && (ownValues report.data).length != 0 then
    s.invoke callback [JSVal.null, env.merge (ownValues report.data)]
  else
    s.invoke callback [JSVal.null, JSVal.obj []]

/-- The functions handed to `functionSync.parallel`, run in key order: one `jsonp`
call per bundle, with the ids of the bundle as `articleIds`. -/
def countsFanOut (url : String) (bundles : List Bundle) (s : State) : State :=
  bundles.foldl (fun st b => st.jsonp url (JSVal.obj [("articleIds", JSVal.arr b.articles)])) s

/-- The function `livefyre.getCommentCounts(articleIds, callback)`. `report` is what
`functionSync.parallel` passes to its completion handler (`none` when it never calls
the handler). Reading `articleIds.length` throws on `null` and `undefined`; only an
array has a `forEach` method; `articleId.toString()` throws inside the loop, before
any remote call, when an id is `null` or `undefined`. -/
def getCommentCounts (env : Env) (cache : Cache) (articleIds callback : JSVal)
    (report : Option Response) : Outcome :=
  if !isFunction callback then
    Outcome.throw ⟨cache, []⟩ "Callbacks not provided"
  else
    let s0 : State := ⟨cache, []⟩
    let s1 := if !truthy articleIds
      then s0.invoke callback [JSVal.error "Article IDs are not provided"] else s0
    if isNullish articleIds then
      Outcome.throw s1 "TypeError: cannot read property length"
    else
      let s2 := if !truthy (getField articleIds "length") then s1.invoke callback [] else s1
      match articleIds with
      | JSVal.arr items =>
          if items.any isNullish then
            Outcome.throw s2 "TypeError: cannot read property toString"
          else
            let url := env.baseUrl ++ env.commentCountsEndpoint
            let articleIdBundles := bundleArticleIds env.toStringLength (jsLength url) items
            let s3 := countsFanOut url articleIdBundles s2
            match report with
            | none => Outcome.done s3
            | some r => Outcome.done (countsHandler env callback s3 r)
      | _ => Outcome.throw s2 "TypeError: articleIds.forEach is not a function"

/-- The state of the `articleIds.forEach` loop after `processed` ids, when every id has
stringified length `idLength` and a bundle is full at `perBundle` ids: nothing yet, or
some full bundles followed by a last bundle of `count` ids, `1 ≤ count ≤ perBundle`. -/
def UniformInv (baseLength idLength perBundle : Nat) (bundles : List Bundle)
    (processed : Nat) : Prop :=
  (processed = 0 ∧ bundles = [])
  ∨ ∃ (full : List Bundle) (b : Bundle) (count : Nat),
      bundles = full ++ [b] ∧ 1 ≤ count ∧ count ≤ perBundle
      ∧ b.size = baseLength + count * idLength
      ∧ processed = full.length * perBundle + count

/-! ## livefyre.getCommentCount -/

/-- The completion handler `function (err, data)` passed to `jsonp` by
`livefyre.getCommentCount`. -/
def commentCountHandler (callback : JSVal) (s : State) (r : Response) : State :=
  if truthy r.err then
    s.invoke callback [r.err, JSVal.null]
  else if truthy r.data && !isUndefined (getField r.data "count") then
    s.invoke callback [JSVal.null, getField r.data "count"]
  else
    s.invoke callback [JSVal.error "No data received from SUDS.", JSVal.null]

/-- The function `livefyre.getCommentCount(articleId, callback)`. -/
def getCommentCount (env : Env) (cache : Cache) (articleId callback : JSVal)
    (response : Option Response) : Outcome :=
  if !isFunction callback then
    Outcome.throw ⟨cache, []⟩ "Callbacks not provided"
  else
    let s0 : State := ⟨cache, []⟩
    let s1 := if !truthy articleId
      then s0.invoke callback [JSVal.error "Article ID not provided"] else s0
    let s2 := s1.jsonp (env.baseUrl ++ env.commentCountEndpoint)
      (JSVal.obj [("articleId", articleId)])
    match response with
    | none => Outcome.done s2
    | some r => Outcome.done (commentCountHandler callback s2 r)

/-! ## user.updateUser -/

/-- The white space of JavaScript (`\s`, and what `String.prototype.trim` removes):
tab, line feed, vertical tab, form feed, carriage return, space, no-break space, the
Unicode space separators, the line and paragraph separators and the byte order mark. -/
def isWhitespace (c : Char) : Bool :=
  c.toNat = 9 || c.toNat = 10 || c.toNat = 11 || c.toNat = 12 || c.toNat = 13
    || c.toNat = 32 || c.toNat = 160 || c.toNat = 5760
    || (8192 ≤ c.toNat && c.toNat ≤ 8202)
    || c.toNat = 8232 || c.toNat = 8233 || c.toNat = 8239 || c.toNat = 8287
    || c.toNat = 12288 || c.toNat = 65279

/-- The characters left when the white space at both ends is removed. -/
def trimChars (cs : List Char) : List Char :=
  ((cs.dropWhile isWhitespace).reverse.dropWhile isWhitespace).reverse

/-- Modelled from the spec: `utils.trim` of `utils.js`, which is not among the sources.
"If a `pseudonym` field is present, it is trimmed of surrounding whitespace before
sending." The spec speaks of strings only; a value that is not a string is left as it
is. -/
def trim : JSVal → JSVal
  | JSVal.str s => JSVal.str (String.mk (trimChars s.data))
  | other => other

/-- The test `typeof v === 'object'`. -/
def isObjectType : JSVal → Bool
  | JSVal.null => true
  | JSVal.arr _ => true
  | JSVal.obj _ => true
  | JSVal.error _ => true
  | _ => false

/-- The object `dataToBeSent` of `user.updateUser` when the request is decided: the
settings object itself, with its own `pseudonym` trimmed and `sessionId` set when a
session is present. -/
def updateUserDataToBeSent (env : Env) (userSettings : JSVal) : JSVal :=
  let trimmed :=
    if hasOwnProperty userSettings "pseudonym" then
      setField userSettings "pseudonym" (trim (getField userSettings "pseudonym"))
    else userSettings
  if truthy env.session then setField trimmed "sessionId" env.session else trimmed

/-- The completion handler `function (err, data)` passed to `jsonp` by
`user.updateUser`. -/
def updateUserHandler (callback : JSVal) (s : State) (r : Response) : State :=
  if truthy r.err then
    s.invoke callback [r.err, JSVal.null]
  else if !truthy r.data then
    s.invoke callback [JSVal.error "No data received.", JSVal.null]
  else if getField r.data "status" = JSVal.str "ok" then
    s.invoke callback [JSVal.null, r.data]
  else if truthy (getField r.data "error") then
    s.invoke callback
      [JSVal.obj [("sudsError", JSVal.bool true), ("error", getField r.data "error")],
        JSVal.null]
  else
    s.invoke callback [JSVal.error "An error occured.", JSVal.null]

/-- The function `user.updateUser(userSettings, callback)`. `userSettings` and
`dataToBeSent` are one object, so the tests on `userSettings` after the writes read
`dataToBeSent`. -/
def updateUser (env : Env) (cache : Cache) (userSettings callback : JSVal)
    (response : Option Response) : Outcome :=
  if !isFunction callback then
    Outcome.throw ⟨cache, []⟩ "Callback not provided."
  else
    let s0 : State := ⟨cache, []⟩
    if !truthy userSettings || !isObjectType userSettings then
      Outcome.done (s0.invoke callback [JSVal.error "Settings not provided."])
    else
      let dataToBeSent := updateUserDataToBeSent env userSettings
      if !hasOwnProperty dataToBeSent "pseudonym"
          || (hasOwnProperty dataToBeSent "pseudonym"
              && truthy (getField dataToBeSent "pseudonym")) then
        let s1 := s0.jsonp (env.baseUrl ++ env.updateUserEndpoint) dataToBeSent
        match response with
        | none => Outcome.done s1
        | some r => Outcome.done (updateUserHandler callback s1 r)
      else
        Outcome.done
          (s0.invoke callback
            [JSVal.obj [("sudsError", JSVal.bool true),
                ("error", JSVal.str "Pseudonym is blank.")],
              JSVal.null])

/-! ## A concrete environment for the worked examples -/

/-- An environment with caching switched on and a session: ids are measured as
strings, and `merge` concatenates the properties of the objects it is given. -/
def sampleEnv : Env :=
  { cacheSetting := JSVal.bool true
    session := JSVal.str "sid"
    baseUrl := "https://suds/"
    initEndpoint := "init"
    commentCountEndpoint := "count"
    commentCountsEndpoint := "counts"
    getAuthEndpoint := "auth"
    updateUserEndpoint := "update"
    toStringLength := fun v =>
      match v with
      | JSVal.str s => jsLength s
      | _ => 0
    merge := fun vs =>
      JSVal.obj (vs.foldl
        (fun acc v =>
          match v with
          | JSVal.obj fields => acc ++ fields
          | _ => acc) []) }

end Suds

namespace Suds
open JSVal

/-! ## Properties of property reads and writes -/

theorem lookup_setFieldList_self (fields : List (String × JSVal)) (k : String) (x : JSVal) :
    (setFieldList fields k x).lookup k = some x := by
  induction fields with
  | nil => simp [setFieldList, List.lookup]
  | cons e rest ih =>
      obtain ⟨l, y⟩ := e
      by_cases h : l = k
      · simp [setFieldList, h, List.lookup]
      · have h2 : (k == l) = false := by simpa using fun e => h e.symm
        simp [setFieldList, h, List.lookup, h2, ih]

theorem lookup_setFieldList_other (fields : List (String × JSVal)) (k l : String) (x : JSVal)
    (hne : l ≠ k) : (setFieldList fields k x).lookup l = fields.lookup l := by
  induction fields with
  | nil =>
      have h2 : (l == k) = false := by simpa using hne
      simp [setFieldList, List.lookup, h2]
  | cons e rest ih =>
      obtain ⟨m, y⟩ := e
      by_cases h : m = k
      · subst h
        have h2 : (l == m) = false := by simpa using hne
        simp [setFieldList, List.lookup, h2]
      · by_cases h3 : l = m
        · subst h3
          simp [setFieldList, h, List.lookup]
        · have h4 : (l == m) = false := by simpa using h3
          simp [setFieldList, h, List.lookup, h4, ih]

theorem getField_setField_self (fields : List (String × JSVal)) (k : String) (x : JSVal) :
    getField (setField (JSVal.obj fields) k x) k = x := by
  simp [setField, getField, lookup_setFieldList_self]

theorem getField_setField_other (fields : List (String × JSVal)) (k l : String) (x : JSVal)
    (hne : l ≠ k) :
    getField (setField (JSVal.obj fields) k x) l = getField (JSVal.obj fields) l := by
  simp [setField, getField, lookup_setFieldList_other _ _ _ _ hne]

/-! ## livefyre.getInitConfig -/

theorem initValidate_of_fields (conf callback : JSVal) (s : State)
    (h1 : hasOwnProperty conf "articleId" = true) (h2 : hasOwnProperty conf "url" = true)
    (h3 : hasOwnProperty conf "elId" = true) (h4 : hasOwnProperty conf "title" = true) :
    initValidate conf callback s = s := by
  simp [initValidate, h1, h2, h3, h4]

theorem truthy_of_hasOwnProperty (conf : JSVal) (k : String)
    (h : hasOwnProperty conf k = true) : truthy conf = true := by
  cases conf <;> simp_all [hasOwnProperty, truthy]

theorem strictTrue_eq_false (v : JSVal) (h : v ≠ JSVal.bool true) : strictTrue v = false := by
  cases v with
  | bool b => cases b <;> simp_all [strictTrue]
  | _ => simp [strictTrue]

/-- C1. Cache hit of `livefyre.getInitConfig`: for a configuration with own `articleId`,
`url`, `elId` and `title`, when the cache setting is `true`, a session id is present,
the cache holds an init entry (an object) for `conf.articleId` and `conf.force` is not
`true`, no `jsonp` call is issued and the only effect is one invocation of the callback
with `(null, payload)`, where `payload` is the cached entry with `el` set to
`conf.elId` (whatever `el` it held) and every other property unchanged; nothing is
thrown and the cache is left as it was. -/
theorem getInitConfig_cache_hit (env : Env) (cache : Cache) (conf callback : JSVal)
    (response : Option Response) (fields : List (String × JSVal))
    (hcb : isFunction callback = true)
    (h1 : hasOwnProperty conf "articleId" = true) (h2 : hasOwnProperty conf "url" = true)
    (h3 : hasOwnProperty conf "elId" = true) (h4 : hasOwnProperty conf "title" = true)
    (hsetting : env.cacheSetting = JSVal.bool true) (hsession : truthy env.session = true)
    (hentry : cache.getInit (getField conf "articleId") = JSVal.obj fields)
    (hforce : getField conf "force" ≠ JSVal.bool true) :
    (getInitConfig env cache conf callback response).remoteCalls = []
    ∧ (getInitConfig env cache conf callback response).trace
        = [Event.callback callback
            [JSVal.null, setField (JSVal.obj fields) "el" (getField conf "elId")]]
    ∧ getField (setField (JSVal.obj fields) "el" (getField conf "elId")) "el"
        = getField conf "elId"
    ∧ (∀ k : String, k ≠ "el" →
        getField (setField (JSVal.obj fields) "el" (getField conf "elId")) k
          = getField (JSVal.obj fields) k)
    ∧ (getInitConfig env cache conf callback response).thrown = none
    ∧ (getInitConfig env cache conf callback response).cache = cache := by
  have hconf : truthy conf = true := truthy_of_hasOwnProperty conf "articleId" h1
  have hen : cacheEnabled env = true := by simp [cacheEnabled, hsetting, hsession, strictTrue]
  have hf : strictTrue (getField conf "force") = false := strictTrue_eq_false _ hforce
  have hrun : getInitConfig env cache conf callback response
      = Outcome.done (State.invoke ⟨cache, []⟩ callback
          [JSVal.null, setField (JSVal.obj fields) "el" (getField conf "elId")]) := by
    have ht : truthy (JSVal.obj fields) = true := rfl
    simp [getInitConfig, hcb, hconf, initValidate_of_fields conf callback _ h1 h2 h3 h4,
      hen, hentry, hf, ht]
  refine ⟨?_, ?_, getField_setField_self _ _ _, ?_, ?_, ?_⟩
  · simp [hrun, Outcome.remoteCalls, Outcome.done, State.invoke, Event.isJsonp]
  · simp [hrun, Outcome.done, State.invoke]
  · intro k hk
    exact getField_setField_other _ _ _ _ hk
  · simp [hrun, Outcome.done, State.invoke]
  · simp [hrun, Outcome.done, State.invoke]

/-- Witness for C1: an entry cached with `el = "old"` is delivered with `el = "e"`. -/
theorem getInitConfig_cache_hit_witness :
    (getInitConfig
        sampleEnv
        ⟨[(JSVal.str "a1", JSVal.obj [("el", JSVal.str "old"), ("siteId", JSVal.num 7)])], none⟩
        (JSVal.obj [("articleId", JSVal.str "a1"), ("url", JSVal.str "u"),
          ("elId", JSVal.str "e"), ("title", JSVal.str "t")])
        (JSVal.func 0 2) none).trace
      = [Event.callback (JSVal.func 0 2)
          [JSVal.null, JSVal.obj [("el", JSVal.str "e"), ("siteId", JSVal.num 7)]]] :=
  (getInitConfig_cache_hit
    sampleEnv
    ⟨[(JSVal.str "a1", JSVal.obj [("el", JSVal.str "old"), ("siteId", JSVal.num 7)])], none⟩
    (JSVal.obj [("articleId", JSVal.str "a1"), ("url", JSVal.str "u"),
      ("elId", JSVal.str "e"), ("title", JSVal.str "t")])
    (JSVal.func 0 2) none [("el", JSVal.str "old"), ("siteId", JSVal.num 7)]
    (by decide) (by decide) (by decide) (by decide) (by decide) rfl (by decide) (by decide)
    (by decide)).2.1

end Suds

namespace Suds
open JSVal

/-! ## Properties of the cache operations -/

theorem getInit_cacheInit (c : Cache) (articleId initObj : JSVal) :
    (c.cacheInit articleId initObj).getInit articleId = initObj := by
  simp [Cache.cacheInit, Cache.getInit, List.lookup]

theorem getInit_cacheAuth (c : Cache) (a k : JSVal) : (c.cacheAuth a).getInit k = c.getInit k := rfl

theorem getInit_removeAuth (c : Cache) (k : JSVal) : c.removeAuth.getInit k = c.getInit k := rfl

theorem getInit_of_lookup_none (c : Cache) (k : JSVal) (h : c.init.lookup k = none) :
    c.getInit k = JSVal.null := by
  simp [Cache.getInit, h]

theorem cacheEnabled_of (env : Env) (hsetting : env.cacheSetting = JSVal.bool true)
    (hsession : truthy env.session = true) : cacheEnabled env = true := by
  simp [cacheEnabled, hsetting, hsession, strictTrue]

/-- The remote calls of a run that goes through `makeCall` from a state without
remote calls: exactly the one `jsonp` call, whatever the transport answers. -/
theorem initMakeCall_trace_filter_isJsonp (env : Env) (conf callback : JSVal) (s : State)
    (response : Option Response) :
    (initMakeCall env conf callback s response).trace.filter Event.isJsonp
      = s.trace.filter Event.isJsonp
        ++ [Event.jsonp (env.baseUrl ++ env.initEndpoint) (initDataToBeSent env conf)] := by
  cases response with
  | none => simp [initMakeCall, State.jsonp, Event.isJsonp]
  | some r =>
      simp only [initMakeCall, initHandler]
      split_ifs <;>
        simp [State.jsonp, State.invoke, State.cacheInit, State.cacheAuth, State.removeAuth,
          Event.isJsonp]

/-- C2. Cache miss of `livefyre.getInitConfig`: for a configuration with own `articleId`,
`url`, `elId` and `title`, with caching enabled (cache setting `true`, session present)
and no cache entry for `conf.articleId`, exactly one `jsonp` call is issued whatever the
transport answers; and when the transport answers without error with an `init` payload
that is not unclassified, not disallowed and carries `collectionMeta`, exactly one
`cacheInit` write occurs, with key `conf.articleId` and value the `init` payload of the
response, which the cache then holds under that key. -/
theorem getInitConfig_cache_miss (env : Env) (cache : Cache) (conf callback : JSVal)
    (hcb : isFunction callback = true)
    (h1 : hasOwnProperty conf "articleId" = true) (h2 : hasOwnProperty conf "url" = true)
    (h3 : hasOwnProperty conf "elId" = true) (h4 : hasOwnProperty conf "title" = true)
    (hsetting : env.cacheSetting = JSVal.bool true) (hsession : truthy env.session = true)
    (hmiss : cache.init.lookup (getField conf "articleId") = none) :
    (∀ response : Option Response,
      (getInitConfig env cache conf callback response).remoteCalls
        = [Event.jsonp (env.baseUrl ++ env.initEndpoint) (initDataToBeSent env conf)])
    ∧ (∀ r : Response, truthy r.err = false → truthy r.data = true →
        truthy (getField r.data "init") = true →
        getField (getField r.data "init") "unclassifiedArticle" ≠ JSVal.bool true →
        getField (getField r.data "init") "notAllowedToCreateCollection" ≠ JSVal.bool true →
        truthy (getField (getField r.data "init") "collectionMeta") = true →
        (getInitConfig env cache conf callback (some r)).trace.filter Event.isCacheInit
            = [Event.cacheInit (getField conf "articleId") (getField r.data "init")]
          ∧ (getInitConfig env cache conf callback (some r)).cache.getInit
              (getField conf "articleId") = getField r.data "init") := by
  have hconf : truthy conf = true := truthy_of_hasOwnProperty conf "articleId" h1
  have hen : cacheEnabled env = true := cacheEnabled_of env hsetting hsession
  have hnull : cache.getInit (getField conf "articleId") = JSVal.null :=
    getInit_of_lookup_none cache _ hmiss
  have hrun : ∀ response, getInitConfig env cache conf callback response
      = Outcome.done (initMakeCall env conf callback ⟨cache, []⟩ response) := by
    intro response
    have ht : truthy JSVal.null = false := rfl
    simp [getInitConfig, hcb, hconf, initValidate_of_fields conf callback _ h1 h2 h3 h4,
      hen, hnull, ht]
  constructor
  · intro response
    simp [hrun, Outcome.remoteCalls, Outcome.done, initMakeCall_trace_filter_isJsonp]
  · intro r herr hdata hinit hun hna hmeta
    have hu := strictTrue_eq_false _ hun
    have hn := strictTrue_eq_false _ hna
    rw [hrun]
    by_cases ha : (truthy (getField r.data "auth")
        && truthy (getField (getField r.data "auth") "token")) = true
    · simp [Outcome.done, initMakeCall, initHandler, herr, hdata, hinit, hu, hn, hmeta, hen, ha,
        State.jsonp, State.invoke, State.cacheInit, State.cacheAuth, Event.isCacheInit,
        getInit_cacheInit, getInit_cacheAuth]
    · simp [Outcome.done, initMakeCall, initHandler, herr, hdata, hinit, hu, hn, hmeta, hen, ha,
        State.jsonp, State.invoke, State.cacheInit, State.removeAuth, Event.isCacheInit,
        getInit_cacheInit, getInit_removeAuth]

/-- Witness for C2: an empty cache and a classified, permitted answer with
`collectionMeta`. -/
theorem getInitConfig_cache_miss_witness :
    (getInitConfig
        sampleEnv
        ⟨[], none⟩
        (JSVal.obj [("articleId", JSVal.str "a1"), ("url", JSVal.str "u"),
          ("elId", JSVal.str "e"), ("title", JSVal.str "t")])
        (JSVal.func 0 2)
        (some ⟨JSVal.null,
          JSVal.obj [("init", JSVal.obj [("collectionMeta", JSVal.str "m")])]⟩)).trace.filter
          Event.isCacheInit
      = [Event.cacheInit (JSVal.str "a1") (JSVal.obj [("collectionMeta", JSVal.str "m")])] :=
  ((getInitConfig_cache_miss
    sampleEnv
    ⟨[], none⟩
    (JSVal.obj [("articleId", JSVal.str "a1"), ("url", JSVal.str "u"),
      ("elId", JSVal.str "e"), ("title", JSVal.str "t")])
    (JSVal.func 0 2)
    (by decide) (by decide) (by decide) (by decide) (by decide) rfl (by decide) (by decide)).2
    ⟨JSVal.null, JSVal.obj [("init", JSVal.obj [("collectionMeta", JSVal.str "m")])]⟩
    (by decide) (by decide) (by decide) (by decide) (by decide) (by decide)).1

end Suds

namespace Suds
open JSVal

/-! ## Runs with caching disabled -/

theorem cacheEnabled_eq_false (env : Env)
    (hoff : env.cacheSetting ≠ JSVal.bool true ∨ truthy env.session = false) :
    cacheEnabled env = false := by
  rcases hoff with h | h
  · simp [cacheEnabled, strictTrue_eq_false _ h]
  · simp [cacheEnabled, h]

/-- The validation statements leave the cache alone and add the same events to any
state. -/
theorem initValidate_frame (conf callback : JSVal) (c : Cache) (t : List Event) :
    initValidate conf callback ⟨c, t⟩
      = ⟨c, t ++ (initValidate conf callback ⟨⟨[], none⟩, []⟩).trace⟩ := by
  simp only [initValidate]
  split_ifs <;> simp [State.invoke]

theorem initValidate_trace_filter_isJsonp (conf callback : JSVal) (s : State) :
    (initValidate conf callback s).trace.filter Event.isJsonp
      = s.trace.filter Event.isJsonp := by
  simp only [initValidate]
  split_ifs <;> simp [State.invoke, Event.isJsonp]

theorem initValidate_trace_filter_isCacheWrite (conf callback : JSVal) (s : State) :
    (initValidate conf callback s).trace.filter Event.isCacheWrite
      = s.trace.filter Event.isCacheWrite := by
  simp only [initValidate]
  split_ifs <;> simp [State.invoke, Event.isCacheWrite]

/-- With caching disabled `makeCall` of `getInitConfig` leaves the cache alone and adds
the same events, none of them a cache write, to any state. -/
theorem initMakeCall_disabled (env : Env) (conf callback : JSVal) (c : Cache) (t : List Event)
    (response : Option Response) (hoff : cacheEnabled env = false) :
    initMakeCall env conf callback ⟨c, t⟩ response
        = ⟨c, t ++ (initMakeCall env conf callback ⟨⟨[], none⟩, []⟩ response).trace⟩
    ∧ (initMakeCall env conf callback ⟨⟨[], none⟩, []⟩ response).trace.filter
        Event.isCacheWrite = [] := by
  cases response with
  | none => simp [initMakeCall, State.jsonp, Event.isCacheWrite]
  | some r =>
      simp only [initMakeCall, initHandler, hoff, Bool.and_false]
      split_ifs <;> simp_all [State.jsonp, State.invoke, Event.isCacheWrite]

theorem authMakeCall_trace_filter_isJsonp (env : Env) (callback : JSVal) (s : State)
    (response : Option Response) :
    (authMakeCall env callback s response).trace.filter Event.isJsonp
      = s.trace.filter Event.isJsonp
        ++ [Event.jsonp (env.baseUrl ++ env.getAuthEndpoint) (authDataToBeSent env)] := by
  cases response with
  | none => simp [authMakeCall, State.jsonp, Event.isJsonp]
  | some r =>
      simp only [authMakeCall, authHandler]
      split_ifs <;>
        simp [State.jsonp, State.invoke, State.cacheAuth, State.removeAuth, Event.isJsonp]

/-- With caching disabled `makeCall` of `getAuth` leaves the cache alone and adds the
same events, none of them a cache write, to any state. -/
theorem authMakeCall_disabled (env : Env) (callback : JSVal) (c : Cache) (t : List Event)
    (response : Option Response) (hoff : cacheEnabled env = false) :
    authMakeCall env callback ⟨c, t⟩ response
        = ⟨c, t ++ (authMakeCall env callback ⟨⟨[], none⟩, []⟩ response).trace⟩
    ∧ (authMakeCall env callback ⟨⟨[], none⟩, []⟩ response).trace.filter
        Event.isCacheWrite = [] := by
  cases response with
  | none => simp [authMakeCall, State.jsonp, Event.isCacheWrite]
  | some r =>
      simp only [authMakeCall, authHandler, hoff]
      split_ifs <;> simp_all [State.jsonp, State.invoke, Event.isCacheWrite]

theorem getInitConfig_disabled (env : Env) (cache : Cache) (conf callback : JSVal)
    (response : Option Response) (hoff : cacheEnabled env = false)
    (hcb : isFunction callback = true) (hconf : truthy conf = true) :
    getInitConfig env cache conf callback response
      = Outcome.done (initMakeCall env conf callback (initValidate conf callback ⟨cache, []⟩)
          response) := by
  simp [getInitConfig, hcb, hconf, hoff]

theorem getAuth_disabled (env : Env) (cache : Cache) (confOrCallback callbackArg : JSVal)
    (response : Option Response) (hoff : cacheEnabled env = false)
    (hcb : isFunction confOrCallback = true ∨ isFunction callbackArg = true) :
    getAuth env cache confOrCallback callbackArg response
      = Outcome.done (authMakeCall env
          (if isFunction confOrCallback then confOrCallback else callbackArg)
          ⟨cache, []⟩ response) := by
  have h : isFunction (if isFunction confOrCallback then confOrCallback else callbackArg)
      = true := by
    rcases hcb with h | h
    · simp [h]
    · by_cases h2 : isFunction confOrCallback = true <;> simp [h2, h]
  simp [getAuth, h, hoff]

/-- C3. Cache enablement invariant: when the cache setting is not `true` or no session
id is present, then for `getInitConfig` (called with a callable callback and a
configuration) and for `getAuth` (called with a callable callback in either position),
whatever the configuration and its `force`, the prior cache content and the answer of the
transport: the cache after the call is the cache before it, the trace holds no
`cacheInit`, `cacheAuth` or `removeAuth`, exactly one `jsonp` call is issued, and the
trace and the exception status are the same for any two cache contents. -/
theorem cache_disabled_invariant (env : Env)
    (hoff : env.cacheSetting ≠ JSVal.bool true ∨ truthy env.session = false) :
    (∀ (cache : Cache) (conf callback : JSVal) (response : Option Response),
      isFunction callback = true → truthy conf = true →
        (getInitConfig env cache conf callback response).cache = cache
        ∧ (getInitConfig env cache conf callback response).cacheWrites = []
        ∧ (getInitConfig env cache conf callback response).remoteCalls
            = [Event.jsonp (env.baseUrl ++ env.initEndpoint) (initDataToBeSent env conf)]
        ∧ ∀ other : Cache,
            (getInitConfig env other conf callback response).trace
                = (getInitConfig env cache conf callback response).trace
              ∧ (getInitConfig env other conf callback response).thrown
                = (getInitConfig env cache conf callback response).thrown)
    ∧ (∀ (cache : Cache) (confOrCallback callbackArg : JSVal) (response : Option Response),
      (isFunction confOrCallback = true ∨ isFunction callbackArg = true) →
        (getAuth env cache confOrCallback callbackArg response).cache = cache
        ∧ (getAuth env cache confOrCallback callbackArg response).cacheWrites = []
        ∧ (getAuth env cache confOrCallback callbackArg response).remoteCalls
            = [Event.jsonp (env.baseUrl ++ env.getAuthEndpoint) (authDataToBeSent env)]
        ∧ ∀ other : Cache,
            (getAuth env other confOrCallback callbackArg response).trace
                = (getAuth env cache confOrCallback callbackArg response).trace
              ∧ (getAuth env other confOrCallback callbackArg response).thrown
                = (getAuth env cache confOrCallback callbackArg response).thrown) := by
  have hen := cacheEnabled_eq_false env hoff
  constructor
  · intro cache conf callback response hcb hconf
    have hrun := fun c => getInitConfig_disabled env c conf callback response hen hcb hconf
    have hshape : ∀ c : Cache,
        initMakeCall env conf callback (initValidate conf callback ⟨c, []⟩) response
          = ⟨c, (initValidate conf callback ⟨⟨[], none⟩, []⟩).trace
              ++ (initMakeCall env conf callback ⟨⟨[], none⟩, []⟩ response).trace⟩ := by
      intro c
      rw [initValidate_frame conf callback c [],
        (initMakeCall_disabled env conf callback c _ response hen).1]
      simp
    refine ⟨?_, ?_, ?_, ?_⟩
    · simp [hrun, hshape, Outcome.done]
    · have hv := initValidate_trace_filter_isCacheWrite conf callback ⟨⟨[], none⟩, []⟩
      simp only [List.filter_nil] at hv
      simp [hrun, hshape, Outcome.done, Outcome.cacheWrites, hv,
        (initMakeCall_disabled env conf callback ⟨[], none⟩ [] response hen).2]
    · simp [hrun, Outcome.done, Outcome.remoteCalls, initMakeCall_trace_filter_isJsonp,
        initValidate_trace_filter_isJsonp]
    · intro other
      simp [hrun, hshape, Outcome.done]
  · intro cache confOrCallback callbackArg response hcb
    have hrun := fun c => getAuth_disabled env c confOrCallback callbackArg response hen hcb
    have hshape := fun c : Cache => (authMakeCall_disabled env
      (if isFunction confOrCallback then confOrCallback else callbackArg) c [] response hen).1
    refine ⟨?_, ?_, ?_, ?_⟩
    · rw [hrun cache, hshape cache]; rfl
    · rw [hrun cache, hshape cache]
      simpa [Outcome.done, Outcome.cacheWrites] using (authMakeCall_disabled env
        (if isFunction confOrCallback then confOrCallback else callbackArg)
        ⟨[], none⟩ [] response hen).2
    · simp [hrun, Outcome.done, Outcome.remoteCalls, authMakeCall_trace_filter_isJsonp]
    · intro other
      rw [hrun other, hrun cache, hshape other, hshape cache]
      exact ⟨rfl, rfl⟩

/-- Witness for C3: the cache setting is `false`, a session is present and `force` is
`true`; the filled cache comes back untouched. -/
theorem cache_disabled_invariant_witness :
    (getInitConfig
        { sampleEnv with cacheSetting := JSVal.bool false }
        ⟨[(JSVal.str "a1", JSVal.obj [("el", JSVal.str "old")])], some (JSVal.str "tok")⟩
        (JSVal.obj [("articleId", JSVal.str "a1"), ("force", JSVal.bool true)])
        (JSVal.func 0 2)
        (some ⟨JSVal.null,
          JSVal.obj [("init", JSVal.obj [("collectionMeta", JSVal.str "m")])]⟩)).cache
      = ⟨[(JSVal.str "a1", JSVal.obj [("el", JSVal.str "old")])], some (JSVal.str "tok")⟩ :=
  ((cache_disabled_invariant
    { sampleEnv with cacheSetting := JSVal.bool false }
    (Or.inl (by decide))).1
    ⟨[(JSVal.str "a1", JSVal.obj [("el", JSVal.str "old")])], some (JSVal.str "tok")⟩
    (JSVal.obj [("articleId", JSVal.str "a1"), ("force", JSVal.bool true)])
    (JSVal.func 0 2)
    (some ⟨JSVal.null, JSVal.obj [("init", JSVal.obj [("collectionMeta", JSVal.str "m")])]⟩)
    (by decide) (by decide)).1

end Suds

namespace Suds
open JSVal

/-! ## user.getAuth -/

theorem isObject_of_strictTrue_getField (v : JSVal) (k : String)
    (h : strictTrue (getField v k) = true) : isFunction v = false ∧ isNullish v = false := by
  cases v with
  | obj fields => exact ⟨rfl, rfl⟩
  | arr items =>
      by_cases hk : k = "length" <;> simp [getField, hk, strictTrue] at h
  | str s =>
      by_cases hk : k = "length" <;> simp [getField, hk, strictTrue] at h
  | func id arity =>
      by_cases hk : k = "length" <;> simp [getField, hk, strictTrue] at h
  | error msg =>
      by_cases hk : k = "message" <;> simp [getField, hk, strictTrue] at h
  | _ => simp [getField, strictTrue] at h

/-- When `getAuth` resolves a callback and either caching is disabled, or no truthy
AuthResult is cached, or `force` is `true`, it runs `makeCall`. -/
theorem getAuth_makes_call (env : Env) (cache : Cache) (confOrCallback callbackArg : JSVal)
    (response : Option Response)
    (hcb : isFunction confOrCallback = true ∨ isFunction callbackArg = true)
    (hcall : cacheEnabled env = false ∨ truthy (cache.getAuth env.session) = false
      ∨ strictTrue (getField confOrCallback "force") = true) :
    getAuth env cache confOrCallback callbackArg response
      = Outcome.done (authMakeCall env
          (if isFunction confOrCallback then confOrCallback else callbackArg)
          ⟨cache, []⟩ response) := by
  have h : isFunction (if isFunction confOrCallback then confOrCallback else callbackArg)
      = true := by
    rcases hcb with h | h
    · simp [h]
    · by_cases h2 : isFunction confOrCallback = true <;> simp [h2, h]
  rcases hcall with hoff | hmiss | hforce
  · simp [getAuth, h, hoff]
  · by_cases hen : cacheEnabled env = true <;> simp [getAuth, h, hen, hmiss]
  · have hn := (isObject_of_strictTrue_getField _ _ hforce).2
    by_cases hen : cacheEnabled env = true
    · by_cases ha : truthy (cache.getAuth env.session) = true <;>
        simp [getAuth, h, hen, ha, hn, hforce]
    · simp [getAuth, h, hen]

/-- The effects of `makeCall` of `getAuth` when the transport reports an error. -/
theorem authMakeCall_failure (env : Env) (callback : JSVal) (c : Cache) (r : Response)
    (herr : truthy r.err = true) :
    authMakeCall env callback ⟨c, []⟩ (some r)
      = ⟨c, [Event.jsonp (env.baseUrl ++ env.getAuthEndpoint) (authDataToBeSent env),
          Event.callback callback [r.err, JSVal.null]]⟩ := by
  simp [authMakeCall, authHandler, herr, State.jsonp, State.invoke]

/-- The effects of `makeCall` of `getAuth` on a successful answer with caching
enabled: the auth slot is written or cleared, then the raw answer is delivered. -/
theorem authMakeCall_success_enabled (env : Env) (callback : JSVal) (c : Cache) (r : Response)
    (herr : truthy r.err = false) (hen : cacheEnabled env = true) :
    (authMakeCall env callback ⟨c, []⟩ (some r)).cache
        = (if truthy r.data && truthy (getField r.data "token") then c.cacheAuth r.data
            else c.removeAuth)
    ∧ (authMakeCall env callback ⟨c, []⟩ (some r)).trace.filter Event.isCallback
        = [Event.callback callback [JSVal.null, r.data]]
    ∧ (authMakeCall env callback ⟨c, []⟩ (some r)).trace.filter Event.isCacheWrite
        = [if truthy r.data && truthy (getField r.data "token") then Event.cacheAuth r.data
            else Event.removeAuth] := by
  by_cases ht : (truthy r.data && truthy (getField r.data "token")) = true
  · simp [authMakeCall, authHandler, herr, hen, ht, State.jsonp, State.invoke, State.cacheAuth,
      Event.isCallback, Event.isCacheWrite]
  · simp [authMakeCall, authHandler, herr, hen, ht, State.jsonp, State.invoke, State.removeAuth,
      Event.isCallback, Event.isCacheWrite]

/-- The effects of `makeCall` of `getAuth` on a successful answer with caching
disabled. -/
theorem authMakeCall_success_disabled (env : Env) (callback : JSVal) (c : Cache) (r : Response)
    (herr : truthy r.err = false) (hoff : cacheEnabled env = false) :
    authMakeCall env callback ⟨c, []⟩ (some r)
      = ⟨c, [Event.jsonp (env.baseUrl ++ env.getAuthEndpoint) (authDataToBeSent env),
          Event.callback callback [JSVal.null, r.data]]⟩ := by
  simp [authMakeCall, authHandler, herr, hoff, State.jsonp, State.invoke]

/-- C4. `user.getAuth` with `force`: for a configuration whose `force` is `true`, a
callable callback and caching enabled, exactly one `jsonp` call is issued for every
cache content (with or without a cached AuthResult) and every answer of the transport;
on a transport error the callback receives `(err, null)`; on success it receives
`(null, data)` with `data` the remote answer, not the cached value, and the write-back
takes place: the only cache write is `cacheAuth(data)` when `data` carries a truthy
token and `removeAuth()` otherwise, and the cache after the call is the cache before
with that write applied. -/
theorem getAuth_force (env : Env) (conf callback : JSVal)
    (hforce : getField conf "force" = JSVal.bool true)
    (hcb : isFunction callback = true)
    (hsetting : env.cacheSetting = JSVal.bool true) (hsession : truthy env.session = true) :
    (∀ (cache : Cache) (response : Option Response),
      (getAuth env cache conf callback response).remoteCalls
        = [Event.jsonp (env.baseUrl ++ env.getAuthEndpoint) (authDataToBeSent env)])
    ∧ (∀ (cache : Cache) (r : Response), truthy r.err = true →
        (getAuth env cache conf callback (some r)).callbacks
          = [Event.callback callback [r.err, JSVal.null]])
    ∧ (∀ (cache : Cache) (r : Response), truthy r.err = false →
        (getAuth env cache conf callback (some r)).callbacks
            = [Event.callback callback [JSVal.null, r.data]]
          ∧ (getAuth env cache conf callback (some r)).cacheWrites
            = [if truthy r.data && truthy (getField r.data "token") then Event.cacheAuth r.data
                else Event.removeAuth]
          ∧ (getAuth env cache conf callback (some r)).cache
            = (if truthy r.data && truthy (getField r.data "token") then cache.cacheAuth r.data
                else cache.removeAuth)) := by
  have hen : cacheEnabled env = true := cacheEnabled_of env hsetting hsession
  have hst : strictTrue (getField conf "force") = true := by rw [hforce]; rfl
  have hnf : isFunction conf = false := (isObject_of_strictTrue_getField _ _ hst).1
  have hrun : ∀ cache response, getAuth env cache conf callback response
      = Outcome.done (authMakeCall env callback ⟨cache, []⟩ response) := by
    intro cache response
    have := getAuth_makes_call env cache conf callback response (Or.inr hcb)
      (Or.inr (Or.inr hst))
    simpa [hnf] using this
  refine ⟨?_, ?_, ?_⟩
  · intro cache response
    simp [hrun, Outcome.done, Outcome.remoteCalls, authMakeCall_trace_filter_isJsonp]
  · intro cache r herr
    simp [hrun, Outcome.done, Outcome.callbacks, authMakeCall_failure env callback cache r herr,
      Event.isCallback]
  · intro cache r herr
    have h := authMakeCall_success_enabled env callback cache r herr hen
    rw [hrun]
    exact ⟨h.2.1, h.2.2, h.1⟩

/-- Witness for C4: a cached AuthResult is bypassed and replaced by the remote answer. -/
theorem getAuth_force_witness :
    (getAuth
        sampleEnv
        ⟨[], some (JSVal.obj [("token", JSVal.str "old")])⟩
        (JSVal.obj [("force", JSVal.bool true)]) (JSVal.func 0 2)
        (some ⟨JSVal.null, JSVal.obj [("token", JSVal.str "new")]⟩)).callbacks
      = [Event.callback (JSVal.func 0 2) [JSVal.null, JSVal.obj [("token", JSVal.str "new")]]] :=
  ((getAuth_force
    sampleEnv
    (JSVal.obj [("force", JSVal.bool true)]) (JSVal.func 0 2)
    (by decide) (by decide) rfl (by decide)).2.2
    ⟨[], some (JSVal.obj [("token", JSVal.str "old")])⟩
    ⟨JSVal.null, JSVal.obj [("token", JSVal.str "new")]⟩ (by decide)).1

/-- C5. Write-back of `user.getAuth`: let the callback be resolved and the remote call
be made (caching disabled, or no truthy AuthResult cached, or `force` is `true`), and
let the transport answer `data` without error. Then the callback is invoked exactly
once, with `(null, data)`, `data` being the raw answer; with caching enabled the only
cache write is `cacheAuth(data)` if `data` carries a truthy token and `removeAuth()`
otherwise, so that the auth slot afterwards holds `data`, respectively is empty (the
init entries are untouched); with caching disabled the cache is unchanged. -/
theorem getAuth_write_back (env : Env) (cache : Cache) (confOrCallback callbackArg : JSVal)
    (r : Response)
    (hcb : isFunction confOrCallback = true ∨ isFunction callbackArg = true)
    (hcall : cacheEnabled env = false ∨ truthy (cache.getAuth env.session) = false
      ∨ strictTrue (getField confOrCallback "force") = true)
    (herr : truthy r.err = false) :
    (getAuth env cache confOrCallback callbackArg (some r)).callbacks
        = [Event.callback (if isFunction confOrCallback then confOrCallback else callbackArg)
            [JSVal.null, r.data]]
    ∧ (cacheEnabled env = true →
        (getAuth env cache confOrCallback callbackArg (some r)).cacheWrites
            = [if truthy r.data && truthy (getField r.data "token") then Event.cacheAuth r.data
                else Event.removeAuth]
          ∧ (getAuth env cache confOrCallback callbackArg (some r)).cache.auth
            = (if truthy r.data && truthy (getField r.data "token") then some r.data else none)
          ∧ (getAuth env cache confOrCallback callbackArg (some r)).cache.init = cache.init)
    ∧ (cacheEnabled env = false →
        (getAuth env cache confOrCallback callbackArg (some r)).cache = cache) := by
  rw [getAuth_makes_call env cache confOrCallback callbackArg (some r) hcb hcall]
  by_cases hen : cacheEnabled env = true
  · have h := authMakeCall_success_enabled env
      (if isFunction confOrCallback then confOrCallback else callbackArg) cache r herr hen
    refine ⟨h.2.1, ?_, ?_⟩
    · intro _
      refine ⟨h.2.2, ?_⟩
      simp only [Outcome.done, h.1]
      split_ifs <;> simp [Cache.cacheAuth, Cache.removeAuth]
    · intro hoff
      rw [hen] at hoff
      cases hoff
  · have hoff : cacheEnabled env = false := by simpa using hen
    have h := authMakeCall_success_disabled env
      (if isFunction confOrCallback then confOrCallback else callbackArg) cache r herr hoff
    refine ⟨?_, ?_, ?_⟩
    · simp [Outcome.done, Outcome.callbacks, h, Event.isCallback]
    · intro hen2
      exact absurd hen2 hen
    · intro _
      simp [Outcome.done, h]

/-- Witness for C5: an answer without token empties the slot that held an AuthResult
(the call is made because `force` is `true`). -/
theorem getAuth_write_back_witness :
    (getAuth
        sampleEnv
        ⟨[], some (JSVal.obj [("token", JSVal.str "old")])⟩
        (JSVal.obj [("force", JSVal.bool true)]) (JSVal.func 0 2)
        (some ⟨JSVal.null, JSVal.obj [("servertime", JSVal.num 5)]⟩)).cache.auth
      = none :=
  ((getAuth_write_back
    sampleEnv
    ⟨[], some (JSVal.obj [("token", JSVal.str "old")])⟩
    (JSVal.obj [("force", JSVal.bool true)]) (JSVal.func 0 2)
    ⟨JSVal.null, JSVal.obj [("servertime", JSVal.num 5)]⟩
    (Or.inr (by decide)) (Or.inr (Or.inr (by decide))) (by decide)).2.1 (by decide)).2.1

end Suds

namespace Suds
open JSVal

/-! ## Runs of livefyre.getInitConfig through `makeCall` and through the cache -/

theorem initValidate_cache (conf callback : JSVal) (s : State) :
    (initValidate conf callback s).cache = s.cache := by
  simp only [initValidate]
  split_ifs <;> simp [State.invoke]

theorem initValidate_trace_filter_isCallback (conf callback : JSVal) :
    (initValidate conf callback ⟨⟨[], none⟩, []⟩).trace.filter Event.isCallback
      = (initValidate conf callback ⟨⟨[], none⟩, []⟩).trace := by
  simp only [initValidate]
  split_ifs <;> simp [State.invoke, Event.isCallback]

/-- When the guards pass and either caching is disabled, or `force` is `true`, or no
truthy entry is cached for the article, `getInitConfig` validates and runs `makeCall`. -/
theorem getInitConfig_makes_call (env : Env) (cache : Cache) (conf callback : JSVal)
    (response : Option Response) (hcb : isFunction callback = true)
    (hconf : truthy conf = true)
    (hcall : cacheEnabled env = false ∨ strictTrue (getField conf "force") = true
      ∨ truthy (cache.getInit (getField conf "articleId")) = false) :
    getInitConfig env cache conf callback response
      = Outcome.done (initMakeCall env conf callback
          ⟨cache, (initValidate conf callback ⟨⟨[], none⟩, []⟩).trace⟩ response) := by
  have hv := initValidate_frame conf callback cache []
  simp only [List.nil_append] at hv
  rcases hcall with h | h | h
  · simp [getInitConfig, hcb, hconf, h, hv]
  · by_cases hen : cacheEnabled env = true <;> simp [getInitConfig, hcb, hconf, h, hen, hv]
  · by_cases hen : cacheEnabled env = true <;> simp [getInitConfig, hcb, hconf, h, hen, hv]

/-- When the guards pass, caching is enabled, `force` is not `true` and a truthy entry
is cached for the article, `getInitConfig` validates and delivers the entry with `el`
set to `conf.elId`. -/
theorem getInitConfig_serves_cache (env : Env) (cache : Cache) (conf callback : JSVal)
    (response : Option Response) (hcb : isFunction callback = true)
    (hconf : truthy conf = true) (hen : cacheEnabled env = true)
    (hforce : strictTrue (getField conf "force") = false)
    (hhit : truthy (cache.getInit (getField conf "articleId")) = true) :
    getInitConfig env cache conf callback response
      = ⟨cache, (initValidate conf callback ⟨⟨[], none⟩, []⟩).trace
          ++ [Event.callback callback [JSVal.null,
                setField (cache.getInit (getField conf "articleId")) "el"
                  (getField conf "elId")]], none⟩ := by
  have hv := initValidate_frame conf callback cache []
  simp only [List.nil_append] at hv
  simp [getInitConfig, hcb, hconf, hen, hforce, hhit, hv, Outcome.done, State.invoke]

/-- The effects of `makeCall` of `getInitConfig` on a successful, cache-eligible
answer. -/
theorem initMakeCall_success_eligible (env : Env) (conf callback : JSVal) (c : Cache)
    (t : List Event) (r : Response)
    (herr : truthy r.err = false) (hdata : truthy r.data = true)
    (hinit : truthy (getField r.data "init") = true)
    (hun : strictTrue (getField (getField r.data "init") "unclassifiedArticle") = false)
    (hna : strictTrue (getField (getField r.data "init") "notAllowedToCreateCollection") = false)
    (hmeta : truthy (getField (getField r.data "init") "collectionMeta") = true)
    (hen : cacheEnabled env = true) :
    initMakeCall env conf callback ⟨c, t⟩ (some r)
      = ⟨if truthy (getField r.data "auth")
              && truthy (getField (getField r.data "auth") "token")
          then (c.cacheInit (getField conf "articleId") (getField r.data "init")).cacheAuth
                (getField r.data "auth")
          else (c.cacheInit (getField conf "articleId") (getField r.data "init")).removeAuth,
        t ++ [Event.jsonp (env.baseUrl ++ env.initEndpoint) (initDataToBeSent env conf),
          Event.cacheInit (getField conf "articleId") (getField r.data "init"),
          if truthy (getField r.data "auth")
              && truthy (getField (getField r.data "auth") "token")
          then Event.cacheAuth (getField r.data "auth") else Event.removeAuth,
          Event.callback callback [JSVal.null, getField r.data "init"]]⟩ := by
  by_cases ha : (truthy (getField r.data "auth")
      && truthy (getField (getField r.data "auth") "token")) = true
  · simp [initMakeCall, initHandler, herr, hdata, hinit, hun, hna, hmeta, hen, ha,
      State.jsonp, State.invoke, State.cacheInit, State.cacheAuth]
  · simp [initMakeCall, initHandler, herr, hdata, hinit, hun, hna, hmeta, hen, ha,
      State.jsonp, State.invoke, State.cacheInit, State.removeAuth]

/-- The callbacks of `makeCall` of `getInitConfig` on a successful answer with an
`init` payload, cached or not: one invocation with `(null, data.init)`. -/
theorem initMakeCall_success_trace (env : Env) (conf callback : JSVal) (c : Cache)
    (t : List Event) (r : Response)
    (herr : truthy r.err = false) (hdata : truthy r.data = true)
    (hinit : truthy (getField r.data "init") = true) :
    (initMakeCall env conf callback ⟨c, t⟩ (some r)).trace.filter Event.isCallback
        = t.filter Event.isCallback
          ++ [Event.callback callback [JSVal.null, getField r.data "init"]]
    ∧ (initMakeCall env conf callback ⟨c, t⟩ (some r)).trace.getLast?
        = some (Event.callback callback [JSVal.null, getField r.data "init"]) := by
  simp only [initMakeCall, initHandler, herr, hdata, hinit]
  split_ifs <;>
    simp_all [State.jsonp, State.invoke, State.cacheInit, State.cacheAuth, State.removeAuth,
      Event.isCallback]

/-- C6. `livefyre.getInitConfig` refreshes or invalidates the auth cache. Let the guards
pass, the remote call be made (caching disabled, or `force` is `true`, or no truthy
entry cached) and the transport answer without error with an `init` payload. Then the
last effect is the callback invoked with `(null, data.init)`, the `init` payload and not
the whole answer, and it is the only invocation after those of the validation, whether
or not anything was cached. If moreover the answer is cache-eligible (`init` not
unclassified, not disallowed, with `collectionMeta`, caching enabled), the cache writes
are `cacheInit(conf.articleId, data.init)` followed by `cacheAuth(data.auth)` when
`data.auth` carries a truthy token and by `removeAuth()` otherwise, and the auth slot
afterwards holds `data.auth`, respectively is empty. -/
theorem getInitConfig_auth_refresh (env : Env) (cache : Cache) (conf callback : JSVal)
    (r : Response) (hcb : isFunction callback = true) (hconf : truthy conf = true)
    (hcall : cacheEnabled env = false ∨ strictTrue (getField conf "force") = true
      ∨ truthy (cache.getInit (getField conf "articleId")) = false)
    (herr : truthy r.err = false) (hdata : truthy r.data = true)
    (hinit : truthy (getField r.data "init") = true) :
    (getInitConfig env cache conf callback (some r)).trace.getLast?
        = some (Event.callback callback [JSVal.null, getField r.data "init"])
    ∧ (getInitConfig env cache conf callback (some r)).callbacks
        = (initValidate conf callback ⟨⟨[], none⟩, []⟩).trace
          ++ [Event.callback callback [JSVal.null, getField r.data "init"]]
    ∧ (getField (getField r.data "init") "unclassifiedArticle" ≠ JSVal.bool true →
        getField (getField r.data "init") "notAllowedToCreateCollection" ≠ JSVal.bool true →
        truthy (getField (getField r.data "init") "collectionMeta") = true →
        cacheEnabled env = true →
        (getInitConfig env cache conf callback (some r)).cacheWrites
            = [Event.cacheInit (getField conf "articleId") (getField r.data "init"),
                if truthy (getField r.data "auth")
                    && truthy (getField (getField r.data "auth") "token")
                then Event.cacheAuth (getField r.data "auth") else Event.removeAuth]
          ∧ (getInitConfig env cache conf callback (some r)).cache.auth
            = (if truthy (getField r.data "auth")
                    && truthy (getField (getField r.data "auth") "token")
                then some (getField r.data "auth") else none)) := by
  rw [getInitConfig_makes_call env cache conf callback (some r) hcb hconf hcall]
  have ht := initMakeCall_success_trace env conf callback cache
    (initValidate conf callback ⟨⟨[], none⟩, []⟩).trace r herr hdata hinit
  refine ⟨ht.2, ?_, ?_⟩
  · simpa [Outcome.done, Outcome.callbacks, initValidate_trace_filter_isCallback] using ht.1
  · intro hun hna hmeta hen
    rw [initMakeCall_success_eligible env conf callback cache _ r herr hdata hinit
      (strictTrue_eq_false _ hun) (strictTrue_eq_false _ hna) hmeta hen]
    have hv := initValidate_trace_filter_isCacheWrite conf callback ⟨⟨[], none⟩, []⟩
    simp only [List.filter_nil] at hv
    constructor
    · simp only [Outcome.done, Outcome.cacheWrites, List.filter_append, hv, List.nil_append]
      split_ifs <;> simp [Event.isCacheWrite]
    · simp only [Outcome.done]
      split_ifs <;> simp [Cache.cacheAuth, Cache.removeAuth, Cache.cacheInit]

/-- Witness for C6: an eligible answer without `auth` clears the slot that held an
AuthResult, and the callback receives the `init` payload. -/
theorem getInitConfig_auth_refresh_witness :
    (getInitConfig
        sampleEnv
        ⟨[], some (JSVal.obj [("token", JSVal.str "old")])⟩
        (JSVal.obj [("articleId", JSVal.str "a1"), ("url", JSVal.str "u"),
          ("elId", JSVal.str "e"), ("title", JSVal.str "t")])
        (JSVal.func 0 2)
        (some ⟨JSVal.null,
          JSVal.obj [("init", JSVal.obj [("collectionMeta", JSVal.str "m")])]⟩)).cache.auth
      = none :=
  ((getInitConfig_auth_refresh
    sampleEnv
    ⟨[], some (JSVal.obj [("token", JSVal.str "old")])⟩
    (JSVal.obj [("articleId", JSVal.str "a1"), ("url", JSVal.str "u"),
      ("elId", JSVal.str "e"), ("title", JSVal.str "t")])
    (JSVal.func 0 2)
    ⟨JSVal.null, JSVal.obj [("init", JSVal.obj [("collectionMeta", JSVal.str "m")])]⟩
    (by decide) (by decide) (Or.inr (Or.inr (by decide))) (by decide) (by decide)
    (by decide)).2.2 (by decide) (by decide) (by decide) (by decide)).2

end Suds

namespace Suds
open JSVal

/-! ## Two calls of livefyre.getInitConfig in a row -/

theorem setFieldList_of_lookup (fields : List (String × JSVal)) (k : String) (x : JSVal)
    (h : fields.lookup k = some x) : setFieldList fields k x = fields := by
  induction fields with
  | nil => simp [List.lookup] at h
  | cons e rest ih =>
      obtain ⟨l, y⟩ := e
      by_cases hl : l = k
      · subst hl
        simp [List.lookup] at h
        simp [setFieldList, h]
      · have h2 : (k == l) = false := by simpa using fun e => hl e.symm
        simp [List.lookup, h2] at h
        simp [setFieldList, hl, ih h]

/-- Writing to `el` the value the object already holds under its own `el` changes
nothing. -/
theorem setField_of_own (v : JSVal) (k : String) (x : JSVal)
    (hown : hasOwnProperty v k = true) (hval : getField v k = x) : setField v k x = v := by
  cases v with
  | obj fields =>
      simp only [hasOwnProperty, getField] at hown hval
      cases hl : fields.lookup k with
      | none => simp [hl] at hown
      | some y =>
          simp [hl] at hval
          subst hval
          simp [setField, setFieldList_of_lookup fields k y hl]
  | _ => simp [hasOwnProperty] at hown

/-- C7 (as amended). Two calls of `getInitConfig` in a row with the same input, caching
enabled and `force` not `true`. If the first call was served from the cache, the second
has the same trace and issues no remote call. If the first call found no truthy entry
and the transport answered it with a cache-eligible success (`init` not unclassified,
not disallowed, with `collectionMeta`), the second call issues no remote call and
delivers the `init` payload the first call delivered with `el` set to `conf.elId`; its
callback invocations equal those of the first call when that payload already has its
own `el` equal to `conf.elId`. -/
theorem getInitConfig_twice (env : Env) (cache : Cache) (conf callback : JSVal)
    (hcb : isFunction callback = true) (hconf : truthy conf = true)
    (hsetting : env.cacheSetting = JSVal.bool true) (hsession : truthy env.session = true)
    (hforce : getField conf "force" ≠ JSVal.bool true) :
    (∀ r1 r2 : Option Response,
      truthy (cache.getInit (getField conf "articleId")) = true →
        (getInitConfig env (getInitConfig env cache conf callback r1).cache conf callback
            r2).remoteCalls = []
        ∧ (getInitConfig env (getInitConfig env cache conf callback r1).cache conf callback
            r2).trace = (getInitConfig env cache conf callback r1).trace)
    ∧ (∀ (r : Response) (r2 : Option Response),
      truthy (cache.getInit (getField conf "articleId")) = false →
      truthy r.err = false → truthy r.data = true → truthy (getField r.data "init") = true →
      getField (getField r.data "init") "unclassifiedArticle" ≠ JSVal.bool true →
      getField (getField r.data "init") "notAllowedToCreateCollection" ≠ JSVal.bool true →
      truthy (getField (getField r.data "init") "collectionMeta") = true →
        (getInitConfig env (getInitConfig env cache conf callback (some r)).cache conf callback
            r2).remoteCalls = []
        ∧ (getInitConfig env cache conf callback (some r)).callbacks
            = (initValidate conf callback ⟨⟨[], none⟩, []⟩).trace
              ++ [Event.callback callback [JSVal.null, getField r.data "init"]]
        ∧ (getInitConfig env (getInitConfig env cache conf callback (some r)).cache conf callback
            r2).callbacks
            = (initValidate conf callback ⟨⟨[], none⟩, []⟩).trace
              ++ [Event.callback callback [JSVal.null,
                    setField (getField r.data "init") "el" (getField conf "elId")]]
        ∧ (hasOwnProperty (getField r.data "init") "el" = true →
            getField (getField r.data "init") "el" = getField conf "elId" →
            (getInitConfig env (getInitConfig env cache conf callback (some r)).cache conf
                callback r2).callbacks
              = (getInitConfig env cache conf callback (some r)).callbacks)) := by
  have hen : cacheEnabled env = true := cacheEnabled_of env hsetting hsession
  have hf : strictTrue (getField conf "force") = false := strictTrue_eq_false _ hforce
  have hvj := initValidate_trace_filter_isJsonp conf callback ⟨⟨[], none⟩, []⟩
  simp only [List.filter_nil] at hvj
  constructor
  · intro r1 r2 hhit
    have h1 := getInitConfig_serves_cache env cache conf callback r1 hcb hconf hen hf hhit
    have hc : (getInitConfig env cache conf callback r1).cache = cache := by rw [h1]
    rw [hc, getInitConfig_serves_cache env cache conf callback r2 hcb hconf hen hf hhit, h1]
    simp [Outcome.remoteCalls, hvj, Event.isJsonp]
  · intro r r2 hmiss herr hdata hinit hun hna hmeta
    have h1 := getInitConfig_makes_call env cache conf callback (some r) hcb hconf
      (Or.inr (Or.inr hmiss))
    rw [initMakeCall_success_eligible env conf callback cache _ r herr hdata hinit
      (strictTrue_eq_false _ hun) (strictTrue_eq_false _ hna) hmeta hen] at h1
    have hget : (getInitConfig env cache conf callback (some r)).cache.getInit
        (getField conf "articleId") = getField r.data "init" := by
      rw [h1]
      simp only [Outcome.done]
      split_ifs <;> simp [getInit_cacheInit, getInit_cacheAuth, getInit_removeAuth]
    have hhit : truthy ((getInitConfig env cache conf callback (some r)).cache.getInit
        (getField conf "articleId")) = true := by rw [hget]; exact hinit
    have h2 := getInitConfig_serves_cache env
      (getInitConfig env cache conf callback (some r)).cache conf callback r2 hcb hconf hen hf
      hhit
    rw [hget] at h2
    have hfirst : (getInitConfig env cache conf callback (some r)).callbacks
        = (initValidate conf callback ⟨⟨[], none⟩, []⟩).trace
          ++ [Event.callback callback [JSVal.null, getField r.data "init"]] := by
      rw [h1]
      simp only [Outcome.done, Outcome.callbacks, List.filter_append,
        initValidate_trace_filter_isCallback]
      split_ifs <;> simp [Event.isCallback]
    have hsecond : (getInitConfig env (getInitConfig env cache conf callback (some r)).cache
        conf callback r2).callbacks
        = (initValidate conf callback ⟨⟨[], none⟩, []⟩).trace
          ++ [Event.callback callback [JSVal.null,
                setField (getField r.data "init") "el" (getField conf "elId")]] := by
      rw [h2]
      simp [Outcome.callbacks, List.filter_append, initValidate_trace_filter_isCallback,
        Event.isCallback]
    refine ⟨?_, hfirst, hsecond, ?_⟩
    · rw [h2]
      simp [Outcome.remoteCalls, hvj, Event.isJsonp]
    · intro hown hval
      rw [hsecond, hfirst, setField_of_own _ _ _ hown hval]

/-- Witness for C7 (as amended): an eligible first answer that already carries
`el = "e"` is delivered again by the second call, without a remote call. -/
theorem getInitConfig_twice_witness :
    (getInitConfig
        sampleEnv
        (getInitConfig
          sampleEnv
          ⟨[], none⟩
          (JSVal.obj [("articleId", JSVal.str "a1"), ("url", JSVal.str "u"),
            ("elId", JSVal.str "e"), ("title", JSVal.str "t")])
          (JSVal.func 0 2)
          (some ⟨JSVal.null, JSVal.obj [("init",
            JSVal.obj [("el", JSVal.str "e"), ("collectionMeta", JSVal.str "m")])]⟩)).cache
        (JSVal.obj [("articleId", JSVal.str "a1"), ("url", JSVal.str "u"),
          ("elId", JSVal.str "e"), ("title", JSVal.str "t")])
        (JSVal.func 0 2) none).remoteCalls = [] :=
  ((getInitConfig_twice
    sampleEnv
    ⟨[], none⟩
    (JSVal.obj [("articleId", JSVal.str "a1"), ("url", JSVal.str "u"),
      ("elId", JSVal.str "e"), ("title", JSVal.str "t")])
    (JSVal.func 0 2)
    (by decide) (by decide) rfl (by decide) (by decide)).2
    ⟨JSVal.null, JSVal.obj [("init",
      JSVal.obj [("el", JSVal.str "e"), ("collectionMeta", JSVal.str "m")])]⟩
    none (by decide) (by decide) (by decide) (by decide) (by decide) (by decide)
    (by decide)).1

/-- Counterexample to C7 as stated (same input twice, caching enabled, empty cache at
first). With `force: true` the second call issues a remote call again; so it does when
the first answer was an unclassified article, which is not cached; and when the first
answer is cached but carries `el = "other"`, the second call delivers `el = "e"`, not
what the first call delivered. -/
theorem getInitConfig_twice_counterexample :
    (getInitConfig
        sampleEnv
        (getInitConfig
          sampleEnv
          ⟨[], none⟩
          (JSVal.obj [("articleId", JSVal.str "a1"), ("url", JSVal.str "u"),
            ("elId", JSVal.str "e"), ("title", JSVal.str "t"), ("force", JSVal.bool true)])
          (JSVal.func 0 2)
          (some ⟨JSVal.null, JSVal.obj [("init",
            JSVal.obj [("el", JSVal.str "e"), ("collectionMeta", JSVal.str "m")])]⟩)).cache
        (JSVal.obj [("articleId", JSVal.str "a1"), ("url", JSVal.str "u"),
          ("elId", JSVal.str "e"), ("title", JSVal.str "t"), ("force", JSVal.bool true)])
        (JSVal.func 0 2)
        (some ⟨JSVal.null, JSVal.obj [("init",
          JSVal.obj [("el", JSVal.str "e"), ("collectionMeta", JSVal.str "m")])]⟩)).remoteCalls
      ≠ []
    ∧ (getInitConfig
        sampleEnv
        (getInitConfig
          sampleEnv
          ⟨[], none⟩
          (JSVal.obj [("articleId", JSVal.str "a1"), ("url", JSVal.str "u"),
            ("elId", JSVal.str "e"), ("title", JSVal.str "t")])
          (JSVal.func 0 2)
          (some ⟨JSVal.null, JSVal.obj [("init",
            JSVal.obj [("el", JSVal.str "e"), ("unclassifiedArticle", JSVal.bool true)])]⟩)).cache
        (JSVal.obj [("articleId", JSVal.str "a1"), ("url", JSVal.str "u"),
          ("elId", JSVal.str "e"), ("title", JSVal.str "t")])
        (JSVal.func 0 2)
        (some ⟨JSVal.null, JSVal.obj [("init",
          JSVal.obj [("el", JSVal.str "e"), ("unclassifiedArticle", JSVal.bool true)])]⟩)).remoteCalls
      ≠ []
    ∧ (getInitConfig
        sampleEnv
        (getInitConfig
          sampleEnv
          ⟨[], none⟩
          (JSVal.obj [("articleId", JSVal.str "a1"), ("url", JSVal.str "u"),
            ("elId", JSVal.str "e"), ("title", JSVal.str "t")])
          (JSVal.func 0 2)
          (some ⟨JSVal.null, JSVal.obj [("init",
            JSVal.obj [("el", JSVal.str "other"), ("collectionMeta", JSVal.str "m")])]⟩)).cache
        (JSVal.obj [("articleId", JSVal.str "a1"), ("url", JSVal.str "u"),
          ("elId", JSVal.str "e"), ("title", JSVal.str "t")])
        (JSVal.func 0 2)
        (some ⟨JSVal.null, JSVal.obj [("init",
          JSVal.obj [("el", JSVal.str "other"), ("collectionMeta", JSVal.str "m")])]⟩)).callbacks
      ≠ (getInitConfig
          sampleEnv
          ⟨[], none⟩
          (JSVal.obj [("articleId", JSVal.str "a1"), ("url", JSVal.str "u"),
            ("elId", JSVal.str "e"), ("title", JSVal.str "t")])
          (JSVal.func 0 2)
          (some ⟨JSVal.null, JSVal.obj [("init",
            JSVal.obj [("el", JSVal.str "other"), ("collectionMeta", JSVal.str "m")])]⟩)).callbacks := by
  refine ⟨?_, ?_, ?_⟩ <;> decide

end Suds

namespace Suds
open JSVal

/-! ## The batching loop of livefyre.getCommentCounts -/

theorem modifyLast_concat (f : Bundle → Bundle) (init : List Bundle) (b : Bundle) :
    modifyLast f (init ++ [b]) = init ++ [f b] := by
  induction init with
  | nil => rfl
  | cons a rest ih =>
      cases rest with
      | nil => rfl
      | cons c more =>
          have h : modifyLast f (a :: c :: (more ++ [b]))
              = a :: modifyLast f (c :: (more ++ [b])) := rfl
          simp only [List.cons_append] at ih ⊢
          rw [h, ih]

theorem lastSize_concat (init : List Bundle) (b : Bundle) :
    lastSize (init ++ [b]) = some b.size := by
  induction init with
  | nil => rfl
  | cons a rest ih =>
      cases rest with
      | nil => rfl
      | cons c more =>
          have h : lastSize (a :: c :: (more ++ [b])) = lastSize (c :: (more ++ [b])) := rfl
          simp only [List.cons_append] at ih ⊢
          rw [h, ih]

theorem addArticleId_nil (strLen : JSVal → Nat) (baseLength : Nat) (articleId : JSVal) :
    addArticleId strLen baseLength [] articleId
      = [{ size := baseLength + strLen articleId, articles := [articleId] }] := by
  simp [addArticleId, lastSize, modifyLast]

theorem addArticleId_full (strLen : JSVal → Nat) (baseLength : Nat) (init : List Bundle)
    (b : Bundle) (articleId : JSVal) (h : 1000 ≤ b.size) :
    addArticleId strLen baseLength (init ++ [b]) articleId
      = (init ++ [b]) ++ [{ size := baseLength + strLen articleId, articles := [articleId] }] := by
  have h2 : modifyLast
      (fun x => { size := x.size + strLen articleId, articles := x.articles ++ [articleId] })
      ((init ++ [b]) ++ [{ size := baseLength, articles := [] }])
      = (init ++ [b]) ++ [{ size := baseLength + strLen articleId, articles := [articleId] }] := by
    rw [modifyLast_concat]
    simp
  simp only [addArticleId, lastSize_concat, h, ge_iff_le, if_true]
  exact h2

theorem addArticleId_room (strLen : JSVal → Nat) (baseLength : Nat) (init : List Bundle)
    (b : Bundle) (articleId : JSVal) (h : b.size < 1000) :
    addArticleId strLen baseLength (init ++ [b]) articleId
      = init ++ [{ size := b.size + strLen articleId, articles := b.articles ++ [articleId] }] := by
  have h2 : ¬ 1000 ≤ b.size := Nat.not_le.mpr h
  simp [addArticleId, lastSize_concat, h2, modifyLast_concat]

theorem bundlesInv_nil (strLen : JSVal → Nat) (baseLength : Nat) :
    BundlesInv strLen baseLength [] [] := by
  simp [BundlesInv]

/-- One pass of the loop body keeps the invariant. -/
theorem bundlesInv_addArticleId (strLen : JSVal → Nat) (baseLength : Nat)
    (bundles : List Bundle) (processed : List JSVal) (articleId : JSVal)
    (h : BundlesInv strLen baseLength bundles processed) :
    BundlesInv strLen baseLength (addArticleId strLen baseLength bundles articleId)
      (processed ++ [articleId]) := by
  obtain ⟨hne, hcat, hsize, hfull, hpre⟩ := h
  rcases List.eq_nil_or_concat bundles with hnil | ⟨init, b, hb⟩
  · subst hnil
    rw [addArticleId_nil]
    simp only [List.map_nil, List.flatten_nil] at hcat
    subst hcat
    simp [BundlesInv]
  · rw [List.concat_eq_append] at hb
    subst hb
    have hbmem : b ∈ init ++ [b] := by simp
    by_cases hcap : 1000 ≤ b.size
    · rw [addArticleId_full _ _ _ _ _ hcap]
      refine ⟨?_, ?_, ?_, ?_, ?_⟩
      · intro x hx
        rcases List.mem_append.mp hx with hx | hx
        · exact hne x hx
        · simp only [List.mem_singleton] at hx
          subst hx
          simp
      · simp only [List.map_append, List.flatten_append, hcat.symm]
        simp
      · intro x hx
        rcases List.mem_append.mp hx with hx | hx
        · exact hsize x hx
        · simp only [List.mem_singleton] at hx
          subst hx
          simp
      · intro x hx
        rw [List.dropLast_concat] at hx
        rcases List.mem_append.mp hx with hx2 | hx2
        · exact hfull x (by simpa using hx2)
        · simp only [List.mem_singleton] at hx2
          subst hx2
          exact hcap
      · intro x hx hlen
        rcases List.mem_append.mp hx with hx | hx
        · exact hpre x hx hlen
        · simp only [List.mem_singleton] at hx
          subst hx
          simp at hlen
    · have hroom : b.size < 1000 := Nat.lt_of_not_le hcap
      rw [addArticleId_room _ _ _ _ _ hroom]
      refine ⟨?_, ?_, ?_, ?_, ?_⟩
      · intro x hx
        rcases List.mem_append.mp hx with hx | hx
        · exact hne x (List.mem_append_left _ hx)
        · simp only [List.mem_singleton] at hx
          subst hx
          simp
      · rw [← hcat]
        simp
      · intro x hx
        rcases List.mem_append.mp hx with hx | hx
        · exact hsize x (List.mem_append_left _ hx)
        · simp only [List.mem_singleton] at hx
          subst hx
          simp only [List.map_append, List.sum_append, List.map_cons, List.map_nil,
            List.sum_cons, List.sum_nil]
          rw [hsize b hbmem]
          omega
      · intro x hx
        rw [List.dropLast_concat] at hx
        exact hfull x (by simpa using hx)
      · intro x hx hlen
        rcases List.mem_append.mp hx with hx | hx
        · exact hpre x (List.mem_append_left _ hx) hlen
        · simp only [List.mem_singleton] at hx
          subst hx
          simp only [List.dropLast_concat]
          rw [← hsize b hbmem]
          exact hroom

theorem bundlesInv_foldl (strLen : JSVal → Nat) (baseLength : Nat) (articleIds : List JSVal) :
    ∀ (bundles : List Bundle) (processed : List JSVal),
      BundlesInv strLen baseLength bundles processed →
      BundlesInv strLen baseLength
        (articleIds.foldl (addArticleId strLen baseLength) bundles) (processed ++ articleIds) := by
  induction articleIds with
  | nil => intro bundles processed h; simpa using h
  | cons a rest ih =>
      intro bundles processed h
      have h2 := ih _ _ (bundlesInv_addArticleId strLen baseLength bundles processed a h)
      simpa using h2

/-- The loop invariant holds of the bundles built from a list of ids. -/
theorem bundlesInv_bundleArticleIds (strLen : JSVal → Nat) (baseLength : Nat)
    (articleIds : List JSVal) :
    BundlesInv strLen baseLength (bundleArticleIds strLen baseLength articleIds) articleIds := by
  have h := bundlesInv_foldl strLen baseLength articleIds [] [] (bundlesInv_nil strLen baseLength)
  simpa [bundleArticleIds] using h

end Suds

namespace Suds
open JSVal

/-! ## The remote calls of livefyre.getCommentCounts -/

theorem countsFanOut_eq (url : String) (bundles : List Bundle) :
    ∀ s : State, countsFanOut url bundles s
      = ⟨s.cache, s.trace ++ bundles.map
          (fun b => Event.jsonp url (JSVal.obj [("articleIds", JSVal.arr b.articles)]))⟩ := by
  induction bundles with
  | nil => intro s; simp [countsFanOut]
  | cons b rest ih =>
      intro s
      have h := ih (s.jsonp url (JSVal.obj [("articleIds", JSVal.arr b.articles)]))
      simp only [countsFanOut, List.foldl_cons] at h ⊢
      rw [h]
      simp [State.jsonp]

theorem filter_isJsonp_map_jsonp (url : String) (bundles : List Bundle) :
    (bundles.map
        (fun b => Event.jsonp url (JSVal.obj [("articleIds", JSVal.arr b.articles)]))).filter
        Event.isJsonp
      = bundles.map
          (fun b => Event.jsonp url (JSVal.obj [("articleIds", JSVal.arr b.articles)])) := by
  induction bundles with
  | nil => rfl
  | cons b rest ih => simp [Event.isJsonp]

theorem countsHandler_eq (env : Env) (callback : JSVal) (s : State) (r : Response) :
    ∃ args : List JSVal,
      countsHandler env callback s r = ⟨s.cache, s.trace ++ [Event.callback callback args]⟩ := by
  simp only [countsHandler]
  split_ifs
  · exact ⟨_, rfl⟩
  · exact ⟨_, rfl⟩
  · exact ⟨_, rfl⟩

/-- On a non-empty array of ids none of which is `null` or `undefined`, and with a
callable callback, `getCommentCounts` issues the calls of the fan-out and then hands the
report of the fan-out, if any, to its completion handler. -/
theorem getCommentCounts_array (env : Env) (cache : Cache) (articleIds : List JSVal)
    (callback : JSVal) (report : Option Response)
    (hcb : isFunction callback = true) (hne : articleIds ≠ [])
    (hids : ∀ id ∈ articleIds, isNullish id = false) :
    getCommentCounts env cache (JSVal.arr articleIds) callback report
      = Outcome.done
          (match report with
            | none =>
                countsFanOut (env.baseUrl ++ env.commentCountsEndpoint)
                  (bundleArticleIds env.toStringLength
                    (jsLength (env.baseUrl ++ env.commentCountsEndpoint)) articleIds)
                  ⟨cache, []⟩
            | some r =>
                countsHandler env callback
                  (countsFanOut (env.baseUrl ++ env.commentCountsEndpoint)
                    (bundleArticleIds env.toStringLength
                      (jsLength (env.baseUrl ++ env.commentCountsEndpoint)) articleIds)
                    ⟨cache, []⟩) r) := by
  have hany : articleIds.any isNullish = false := by
    rw [List.any_eq_false]
    intro x hx
    simp [hids x hx]
  have hlen : truthy (getField (JSVal.arr articleIds) "length") = true := by
    cases articleIds with
    | nil => exact absurd rfl hne
    | cons a rest =>
        simp only [getField, if_true, truthy, List.length_cons]
        simp
        omega
  have ht : truthy (JSVal.arr articleIds) = true := rfl
  have hn : isNullish (JSVal.arr articleIds) = false := rfl
  simp only [getCommentCounts, hcb, ht, hn, hlen, hany]
  cases report <;> simp

/-- C8. Batching of `livefyre.getCommentCounts` is an order-preserving partition. For
every stringified-length function, every base URL length and every list of ids, the
bundles built have non-empty `articles`, the concatenation of their `articles` in
bundle order is the input list, and for a duplicate-free input the `articles` of
distinct bundles are disjoint. For a non-empty array of ids (none `null` or
`undefined`) and a callable callback, `getCommentCounts` throws nothing and its remote
calls are exactly one `jsonp` call per bundle, in bundle order, to the comment-counts
URL, carrying the ids of the bundle as `articleIds`. -/
theorem getCommentCounts_partition (strLen : JSVal → Nat) (baseLength : Nat) (env : Env)
    (cache : Cache) (articleIds : List JSVal) (callback : JSVal) (report : Option Response)
    (hcb : isFunction callback = true) (hne : articleIds ≠ [])
    (hids : ∀ id ∈ articleIds, isNullish id = false) :
    (∀ b ∈ bundleArticleIds strLen baseLength articleIds, b.articles ≠ [])
    ∧ ((bundleArticleIds strLen baseLength articleIds).map Bundle.articles).flatten = articleIds
    ∧ (articleIds.Nodup →
        ((bundleArticleIds strLen baseLength articleIds).map Bundle.articles).Pairwise
          List.Disjoint)
    ∧ bundleArticleIds strLen baseLength articleIds ≠ []
    ∧ (getCommentCounts env cache (JSVal.arr articleIds) callback report).remoteCalls
        = (bundleArticleIds env.toStringLength
            (jsLength (env.baseUrl ++ env.commentCountsEndpoint)) articleIds).map
            (fun b => Event.jsonp (env.baseUrl ++ env.commentCountsEndpoint)
              (JSVal.obj [("articleIds", JSVal.arr b.articles)]))
    ∧ (getCommentCounts env cache (JSVal.arr articleIds) callback report).thrown = none := by
  obtain ⟨h1, h2, _, _, _⟩ := bundlesInv_bundleArticleIds strLen baseLength articleIds
  refine ⟨h1, h2, ?_, ?_, ?_, ?_⟩
  · intro hnodup
    rw [← h2] at hnodup
    exact (List.nodup_flatten.mp hnodup).2
  · intro hnil
    rw [hnil] at h2
    exact hne h2.symm
  · rw [getCommentCounts_array env cache articleIds callback report hcb hne hids]
    cases report with
    | none =>
        simp [Outcome.done, Outcome.remoteCalls, countsFanOut_eq, filter_isJsonp_map_jsonp]
    | some r =>
        obtain ⟨args, hargs⟩ := countsHandler_eq env callback
          (countsFanOut (env.baseUrl ++ env.commentCountsEndpoint)
            (bundleArticleIds env.toStringLength
              (jsLength (env.baseUrl ++ env.commentCountsEndpoint)) articleIds)
            ⟨cache, []⟩) r
        simp only [Outcome.done, Outcome.remoteCalls, hargs]
        simp [countsFanOut_eq, filter_isJsonp_map_jsonp, Event.isJsonp]
  · rw [getCommentCounts_array env cache articleIds callback report hcb hne hids]
    rfl

/-- Witness for C8: three ids of stringified length 600 and a base URL of length 100
give the bundles `[a, b]` and `[c]`, which concatenate to the input. -/
theorem getCommentCounts_partition_witness :
    ((bundleArticleIds (fun _ => 600) 100
        [JSVal.str "a", JSVal.str "b", JSVal.str "c"]).map Bundle.articles)
      = [[JSVal.str "a", JSVal.str "b"], [JSVal.str "c"]]
    ∧ ((bundleArticleIds (fun _ => 600) 100
        [JSVal.str "a", JSVal.str "b", JSVal.str "c"]).map Bundle.articles).flatten
      = [JSVal.str "a", JSVal.str "b", JSVal.str "c"] :=
  ⟨by decide,
    (getCommentCounts_partition (fun _ => 600) 100
      sampleEnv
      ⟨[], none⟩ [JSVal.str "a", JSVal.str "b", JSVal.str "c"] (JSVal.func 0 2) none
      (by decide) (by decide) (by decide)).2.1⟩

/-- C9. Batch size invariant of `livefyre.getCommentCounts`. For every list of ids: the
recorded size of every bundle is the base URL length plus the sum of the stringified
lengths of its ids; for a bundle with more than one id, the size it had before its last
id was appended is below 1000; every bundle except the last has final size at least
1000; hence, when the base URL length is below 1000, the final size of a bundle is below
1000 plus the stringified length of its last id. -/
theorem bundleArticleIds_sizes (strLen : JSVal → Nat) (baseLength : Nat)
    (articleIds : List JSVal) :
    (∀ b ∈ bundleArticleIds strLen baseLength articleIds,
      b.size = baseLength + (b.articles.map strLen).sum)
    ∧ (∀ b ∈ bundleArticleIds strLen baseLength articleIds, 1 < b.articles.length →
        baseLength + (b.articles.dropLast.map strLen).sum < 1000)
    ∧ (∀ b ∈ (bundleArticleIds strLen baseLength articleIds).dropLast, 1000 ≤ b.size)
    ∧ (baseLength < 1000 →
        ∀ b ∈ bundleArticleIds strLen baseLength articleIds,
          ∀ last : JSVal, b.articles.getLast? = some last → b.size < 1000 + strLen last) := by
  obtain ⟨_, _, hsize, hfull, hpre⟩ := bundlesInv_bundleArticleIds strLen baseLength articleIds
  refine ⟨hsize, hpre, hfull, ?_⟩
  intro hbase b hb last hlast
  rcases List.eq_nil_or_concat b.articles with hnil | ⟨init, x, hx⟩
  · rw [hnil] at hlast
    simp at hlast
  · rw [List.concat_eq_append] at hx
    have hxl : x = last := by
      rw [hx, List.getLast?_concat] at hlast
      exact Option.some.inj hlast
    subst hxl
    have hs := hsize b hb
    rw [hx] at hs
    simp only [List.map_append, List.sum_append, List.map_cons, List.map_nil, List.sum_cons,
      List.sum_nil] at hs
    cases init with
    | nil =>
        simp at hs
        omega
    | cons y more =>
        have hp := hpre b hb (by rw [hx]; simp)
        rw [hx, List.dropLast_concat] at hp
        omega

/-- Witness for C9: with base URL length 100 and ids of stringified length 600 the
bundles have sizes 1300 and 700. -/
theorem bundleArticleIds_sizes_witness :
    ((bundleArticleIds (fun _ => 600) 100
        [JSVal.str "a", JSVal.str "b", JSVal.str "c"]).map Bundle.size) = [1300, 700]
    ∧ (∀ b ∈ bundleArticleIds (fun _ => 600) 100 [JSVal.str "a", JSVal.str "b", JSVal.str "c"],
        ∀ last : JSVal, b.articles.getLast? = some last → b.size < 1000 + 600) :=
  ⟨by decide,
    (bundleArticleIds_sizes (fun _ => 600) 100
      [JSVal.str "a", JSVal.str "b", JSVal.str "c"]).2.2.2 (by decide)⟩

end Suds

namespace Suds
open JSVal

/-! ## livefyre.getCommentCounts on an empty list -/

/-- On an empty array `getCommentCounts` invokes the callback without arguments, does
not return, builds no bundle and issues no remote call, and then hands the report of
the fan-out over zero functions, if there is one, to the completion handler. -/
theorem getCommentCounts_empty (env : Env) (cache : Cache) (callback : JSVal)
    (report : Option Response) (hcb : isFunction callback = true) :
    getCommentCounts env cache (JSVal.arr []) callback report
      = Outcome.done
          (match report with
            | none => ⟨cache, [Event.callback callback []]⟩
            | some r => countsHandler env callback ⟨cache, [Event.callback callback []]⟩ r) := by
  cases report <;>
    simp [getCommentCounts, hcb, truthy, isNullish, getField, bundleArticleIds, countsFanOut,
      State.invoke]

end Suds

namespace Suds
open JSVal

/-! ## livefyre.getCommentCounts without ids, and the report of the fan-out -/

/-- With `articleIds` `null` or `undefined`, `getCommentCounts` invokes the callback with
the error of line 170 and then fails on reading `articleIds.length`. -/
theorem getCommentCounts_absent (env : Env) (cache : Cache) (articleIds callback : JSVal)
    (report : Option Response) (hcb : isFunction callback = true)
    (habsent : isNullish articleIds = true) :
    getCommentCounts env cache articleIds callback report
      = ⟨cache, [Event.callback callback [JSVal.error "Article IDs are not provided"]],
          some "TypeError: cannot read property length"⟩ := by
  cases articleIds <;> simp [isNullish] at habsent <;>
    simp [getCommentCounts, hcb, truthy, isNullish, State.invoke, Outcome.throw]

/-- C11 (as amended). `livefyre.getCommentCounts` with `articleIds` absent (`null` or
`undefined`) and a callable callback: the callback is invoked exactly once, with the
error "Article IDs are not provided" as its only argument, and no remote call is
issued. -/
theorem getCommentCounts_absent_ids (env : Env) (cache : Cache) (articleIds callback : JSVal)
    (report : Option Response) (hcb : isFunction callback = true)
    (habsent : articleIds = JSVal.null ∨ articleIds = JSVal.undefined) :
    (getCommentCounts env cache articleIds callback report).callbacks
        = [Event.callback callback [JSVal.error "Article IDs are not provided"]]
    ∧ (getCommentCounts env cache articleIds callback report).remoteCalls = [] := by
  have hn : isNullish articleIds = true := by
    rcases habsent with h | h <;> rw [h] <;> rfl
  rw [getCommentCounts_absent env cache articleIds callback report hcb hn]
  simp [Outcome.callbacks, Outcome.remoteCalls, Event.isCallback, Event.isJsonp]

/-- Witness for C11 (as amended), at `undefined`. -/
theorem getCommentCounts_absent_ids_witness :
    (getCommentCounts sampleEnv ⟨[], none⟩ JSVal.undefined (JSVal.func 0 2) none).callbacks
      = [Event.callback (JSVal.func 0 2) [JSVal.error "Article IDs are not provided"]] :=
  (getCommentCounts_absent_ids sampleEnv ⟨[], none⟩ JSVal.undefined (JSVal.func 0 2) none
    (by decide) (Or.inr rfl)).1

/-- Counterexample to C11 as stated: for `articleIds` `null`, and likewise `undefined`,
the callback is not invoked without arguments but with an error, and the operation
does not complete: it throws after that invocation. -/
theorem getCommentCounts_absent_ids_counterexample :
    getCommentCounts sampleEnv ⟨[], none⟩ JSVal.null (JSVal.func 0 2) none
      = ⟨⟨[], none⟩,
          [Event.callback (JSVal.func 0 2) [JSVal.error "Article IDs are not provided"]],
          some "TypeError: cannot read property length"⟩
    ∧ getCommentCounts sampleEnv ⟨[], none⟩ JSVal.undefined (JSVal.func 0 2) none
      = ⟨⟨[], none⟩,
          [Event.callback (JSVal.func 0 2) [JSVal.error "Article IDs are not provided"]],
          some "TypeError: cannot read property length"⟩
    ∧ (getCommentCounts sampleEnv ⟨[], none⟩ JSVal.null (JSVal.func 0 2) none).callbacks
      ≠ [Event.callback (JSVal.func 0 2) []] := by
  refine ⟨?_, ?_, ?_⟩ <;> decide

/-- The callback invocations of `getCommentCounts` on an array of ids while the fan-out
has not reported: none on a non-empty array, the `callback()` of line 174 on an empty
one. -/
theorem getCommentCounts_before_fanout (env : Env) (cache : Cache) (articleIds : List JSVal)
    (callback : JSVal) (hcb : isFunction callback = true)
    (hids : ∀ id ∈ articleIds, isNullish id = false) :
    (getCommentCounts env cache (JSVal.arr articleIds) callback none).callbacks
      = if articleIds = [] then [Event.callback callback []] else [] := by
  have hf : ∀ bs : List Bundle,
      (bs.map (fun b => Event.jsonp (env.baseUrl ++ env.commentCountsEndpoint)
        (JSVal.obj [("articleIds", JSVal.arr b.articles)]))).filter Event.isCallback = [] := by
    intro bs
    induction bs with
    | nil => rfl
    | cons b rest ih => simp [Event.isCallback]
  by_cases hne : articleIds = []
  · subst hne
    rw [getCommentCounts_empty env cache callback none hcb]
    simp [Outcome.done, Outcome.callbacks, Event.isCallback]
  · rw [getCommentCounts_array env cache articleIds callback none hcb hne hids]
    simp [Outcome.done, Outcome.callbacks, countsFanOut_eq, hf, hne]

/-- The callback invocations of `getCommentCounts` on an array of ids once the fan-out
has reported: those made before the report, then the single invocation made by the
completion handler of lines 209-225. -/
theorem getCommentCounts_after_fanout (env : Env) (cache : Cache) (articleIds : List JSVal)
    (callback : JSVal) (r : Response)
    (hcb : isFunction callback = true)
    (hids : ∀ id ∈ articleIds, isNullish id = false) :
    (getCommentCounts env cache (JSVal.arr articleIds) callback (some r)).callbacks
      = (getCommentCounts env cache (JSVal.arr articleIds) callback none).callbacks
        ++ (countsHandler env callback ⟨cache, []⟩ r).trace := by
  have hf : ∀ bs : List Bundle,
      (bs.map (fun b => Event.jsonp (env.baseUrl ++ env.commentCountsEndpoint)
        (JSVal.obj [("articleIds", JSVal.arr b.articles)]))).filter Event.isCallback = [] := by
    intro bs
    induction bs with
    | nil => rfl
    | cons b rest ih => simp [Event.isCallback]
  by_cases hne : articleIds = []
  · subst hne
    rw [getCommentCounts_empty env cache callback none hcb,
      getCommentCounts_empty env cache callback (some r) hcb]
    simp only [Outcome.done, Outcome.callbacks, countsHandler]
    split_ifs <;> simp [State.invoke, Event.isCallback]
  · rw [getCommentCounts_array env cache articleIds callback none hcb hne hids,
      getCommentCounts_array env cache articleIds callback (some r) hcb hne hids]
    simp only [Outcome.done, Outcome.callbacks, countsFanOut_eq, countsHandler]
    split_ifs <;> simp [State.invoke, hf, Event.isCallback]

/-- C12. Failure and success of `livefyre.getCommentCounts`, for every array of ids
(none `null` or `undefined`), empty or not, and a callable callback. The report
`(err, results)` of the fan-out adds exactly one callback invocation to those made
before it: with a truthy `err` it is `callback(err)`, the error alone and no result
mapping, whatever `results` holds; with no error and no results (a falsy `results`, or
one without keys) it is `callback(null, {})`; with no error and a `results` object with
the values `v1, ..., vn`, one per batch, it is `callback(null, merge(v1, ..., vn))`.
On a non-empty array nothing was invoked before the report, so the callback is invoked
exactly once in all; on an empty array the only earlier invocation is the `callback()`
of line 174. -/
theorem getCommentCounts_report (env : Env) (cache : Cache) (articleIds : List JSVal)
    (callback : JSVal) (r : Response)
    (hcb : isFunction callback = true)
    (hids : ∀ id ∈ articleIds, isNullish id = false) :
    (truthy r.err = true →
      (getCommentCounts env cache (JSVal.arr articleIds) callback (some r)).callbacks
        = (getCommentCounts env cache (JSVal.arr articleIds) callback none).callbacks
          ++ [Event.callback callback [r.err]])
    ∧ (truthy r.err = false →
        (truthy r.data = false ∨ r.data = JSVal.obj [] ∨ r.data = JSVal.arr []) →
      (getCommentCounts env cache (JSVal.arr articleIds) callback (some r)).callbacks
        = (getCommentCounts env cache (JSVal.arr articleIds) callback none).callbacks
          ++ [Event.callback callback [JSVal.null, JSVal.obj []]])
    ∧ (truthy r.err = false →
        ∀ (key : String) (value : JSVal) (rest : List (String × JSVal)),
          r.data = JSVal.obj ((key, value) :: rest) →
      (getCommentCounts env cache (JSVal.arr articleIds) callback (some r)).callbacks
        = (getCommentCounts env cache (JSVal.arr articleIds) callback none).callbacks
          ++ [Event.callback callback
                [JSVal.null, env.merge (value :: rest.map Prod.snd)]])
    ∧ (articleIds ≠ [] →
        (getCommentCounts env cache (JSVal.arr articleIds) callback none).callbacks = [])
    ∧ (articleIds = [] →
        (getCommentCounts env cache (JSVal.arr articleIds) callback none).callbacks
          = [Event.callback callback []]) := by
  rw [getCommentCounts_after_fanout env cache articleIds callback r hcb hids,
    getCommentCounts_before_fanout env cache articleIds callback hcb hids]
  refine ⟨?_, ?_, ?_, ?_, ?_⟩
  · intro herr
    simp [countsHandler, herr, State.invoke]
  · intro herr hres
    rcases hres with h | h | h
    · simp [countsHandler, herr, h, State.invoke]
    · simp [countsHandler, herr, h, State.invoke, ownValues]
    · simp [countsHandler, herr, h, State.invoke, ownValues]
  · intro herr key value rest hdata
    have ht : truthy (JSVal.obj ((key, value) :: rest)) = true := rfl
    simp [countsHandler, herr, hdata, ht, State.invoke, ownValues]
  · intro hne
    simp [hne]
  · intro he
    simp [he]

/-- Witness for C12, on two ids sent as one batch. When the fan-out reports an error
next to the result of a batch that succeeded, the error alone reaches the callback,
once; when it reports the results of two batches, their merge reaches the callback,
once. -/
theorem getCommentCounts_report_witness :
    (getCommentCounts sampleEnv ⟨[], none⟩ (JSVal.arr [JSVal.str "a", JSVal.str "b"])
        (JSVal.func 0 2)
        (some ⟨JSVal.error "timeout",
          JSVal.obj [("0", JSVal.obj [("a", JSVal.num 3)])]⟩)).callbacks
      = [Event.callback (JSVal.func 0 2) [JSVal.error "timeout"]]
    ∧ (getCommentCounts sampleEnv ⟨[], none⟩ (JSVal.arr [JSVal.str "a", JSVal.str "b"])
        (JSVal.func 0 2)
        (some ⟨JSVal.null,
          JSVal.obj [("0", JSVal.obj [("a", JSVal.num 3)]),
            ("1", JSVal.obj [("b", JSVal.num 5)])]⟩)).callbacks
      = [Event.callback (JSVal.func 0 2)
          [JSVal.null, JSVal.obj [("a", JSVal.num 3), ("b", JSVal.num 5)]]] :=
  ⟨((getCommentCounts_report sampleEnv ⟨[], none⟩ [JSVal.str "a", JSVal.str "b"]
      (JSVal.func 0 2)
      ⟨JSVal.error "timeout", JSVal.obj [("0", JSVal.obj [("a", JSVal.num 3)])]⟩
      (by decide) (by decide)).1 (by decide)).trans (by decide),
   ((getCommentCounts_report sampleEnv ⟨[], none⟩ [JSVal.str "a", JSVal.str "b"]
      (JSVal.func 0 2)
      ⟨JSVal.null,
        JSVal.obj [("0", JSVal.obj [("a", JSVal.num 3)]),
          ("1", JSVal.obj [("b", JSVal.num 5)])]⟩
      (by decide) (by decide)).2.2.1 (by decide) "0" (JSVal.obj [("a", JSVal.num 3)])
        [("1", JSVal.obj [("b", JSVal.num 5)])] rfl).trans (by decide)⟩

end Suds

namespace Suds
open JSVal

/-! ## user.updateUser -/

theorem trimChars_of_whitespace (cs : List Char) (h : ∀ c ∈ cs, isWhitespace c = true) :
    trimChars cs = [] := by
  have h1 : cs.dropWhile isWhitespace = [] := List.dropWhile_eq_nil_iff.mpr h
  simp [trimChars, h1]

theorem truthy_str_mk (cs : List Char) : truthy (JSVal.str (String.mk cs)) = !cs.isEmpty := by
  cases cs with
  | nil => rfl
  | cons c rest =>
      have h : String.mk (c :: rest) ≠ "" := by
        intro e
        have h2 := congrArg String.data e
        simp at h2
      simp [truthy, h]

/-- The payload of `updateUser` for settings with an own string `pseudonym`: an object
whose `pseudonym` is the trimmed string. -/
theorem updateUserDataToBeSent_pseudonym (env : Env) (fields : List (String × JSVal))
    (s : String) (hp : fields.lookup "pseudonym" = some (JSVal.str s)) :
    hasOwnProperty (updateUserDataToBeSent env (JSVal.obj fields)) "pseudonym" = true
    ∧ getField (updateUserDataToBeSent env (JSVal.obj fields)) "pseudonym"
        = JSVal.str (String.mk (trimChars s.data)) := by
  have hown : hasOwnProperty (JSVal.obj fields) "pseudonym" = true := by
    simp [hasOwnProperty, hp]
  have hget : getField (JSVal.obj fields) "pseudonym" = JSVal.str s := by
    simp [getField, hp]
  have hne : ("pseudonym" : String) ≠ "sessionId" := by decide
  have hd : updateUserDataToBeSent env (JSVal.obj fields)
      = if truthy env.session then
          JSVal.obj (setFieldList
            (setFieldList fields "pseudonym" (JSVal.str (String.mk (trimChars s.data))))
            "sessionId" env.session)
        else
          JSVal.obj
            (setFieldList fields "pseudonym" (JSVal.str (String.mk (trimChars s.data)))) := by
    simp only [updateUserDataToBeSent, hown, hget, if_true, trim, setField]
  rw [hd]
  by_cases hs : truthy env.session = true
  · simp [hs, hasOwnProperty, getField, lookup_setFieldList_other _ _ _ _ hne,
      lookup_setFieldList_self]
  · simp [hs, hasOwnProperty, getField, lookup_setFieldList_self]

/-- C13. Blank pseudonym in `user.updateUser`. For every settings object with an own
`pseudonym` that is a string, every session state and every callable callback: if the
string is made only of white space (the empty string included), no remote call is
issued and the only effect is one invocation of the callback with
`({sudsError: true, error: "Pseudonym is blank."}, null)`; if the string is non-empty
after trimming, exactly one `jsonp` call is issued and the payload it sends carries the
trimmed pseudonym. -/
theorem updateUser_pseudonym (env : Env) (cache : Cache) (fields : List (String × JSVal))
    (s : String) (callback : JSVal) (response : Option Response)
    (hcb : isFunction callback = true)
    (hp : fields.lookup "pseudonym" = some (JSVal.str s)) :
    ((∀ c ∈ s.data, isWhitespace c = true) →
      (updateUser env cache (JSVal.obj fields) callback response).trace
          = [Event.callback callback
              [JSVal.obj [("sudsError", JSVal.bool true),
                  ("error", JSVal.str "Pseudonym is blank.")], JSVal.null]]
        ∧ (updateUser env cache (JSVal.obj fields) callback response).remoteCalls = []
        ∧ (updateUser env cache (JSVal.obj fields) callback response).thrown = none)
    ∧ (trimChars s.data ≠ [] →
      (updateUser env cache (JSVal.obj fields) callback response).remoteCalls
          = [Event.jsonp (env.baseUrl ++ env.updateUserEndpoint)
              (updateUserDataToBeSent env (JSVal.obj fields))]
        ∧ getField (updateUserDataToBeSent env (JSVal.obj fields)) "pseudonym"
          = JSVal.str (String.mk (trimChars s.data))) := by
  obtain ⟨hown, hget⟩ := updateUserDataToBeSent_pseudonym env fields s hp
  have ht : truthy (JSVal.obj fields) = true := rfl
  have ho : isObjectType (JSVal.obj fields) = true := rfl
  constructor
  · intro hblank
    have htrim := trimChars_of_whitespace s.data hblank
    have hfalsy : truthy (getField (updateUserDataToBeSent env (JSVal.obj fields)) "pseudonym")
        = false := by
      rw [hget, htrim]; rfl
    have hrun : updateUser env cache (JSVal.obj fields) callback response
        = Outcome.done (State.invoke ⟨cache, []⟩ callback
            [JSVal.obj [("sudsError", JSVal.bool true),
                ("error", JSVal.str "Pseudonym is blank.")], JSVal.null]) := by
      simp [updateUser, hcb, ht, ho, hown, hfalsy]
    rw [hrun]
    simp [Outcome.done, Outcome.remoteCalls, State.invoke, Event.isJsonp]
  · intro hne
    have htruthy : truthy (getField (updateUserDataToBeSent env (JSVal.obj fields)) "pseudonym")
        = true := by
      rw [hget, truthy_str_mk]
      cases h : trimChars s.data with
      | nil => exact absurd h hne
      | cons c rest => rfl
    refine ⟨?_, hget⟩
    cases response with
    | none =>
        simp [updateUser, hcb, ht, ho, hown, htruthy, Outcome.done, Outcome.remoteCalls,
          State.jsonp, Event.isJsonp]
    | some r =>
        simp only [updateUser, hcb, ht, ho, hown, htruthy, updateUserHandler]
        split_ifs <;>
          simp_all [Outcome.done, Outcome.remoteCalls, State.jsonp, State.invoke, Event.isJsonp]

/-- Witness for C13: the pseudonym `"   "` is rejected locally, in an anonymous
session as well. -/
theorem updateUser_pseudonym_witness :
    (updateUser { sampleEnv with session := JSVal.null } ⟨[], none⟩
        (JSVal.obj [("pseudonym", JSVal.str "   ")]) (JSVal.func 0 2) none).trace
      = [Event.callback (JSVal.func 0 2)
          [JSVal.obj [("sudsError", JSVal.bool true),
              ("error", JSVal.str "Pseudonym is blank.")], JSVal.null]] :=
  ((updateUser_pseudonym { sampleEnv with session := JSVal.null } ⟨[], none⟩
    [("pseudonym", JSVal.str "   ")] "   " (JSVal.func 0 2) none (by decide) (by decide)).1
    (by decide)).1

end Suds

namespace Suds
open JSVal

/-- When `updateUser` passes its guards and the pseudonym test, it issues the `jsonp`
call and runs the completion handler on the answer of the transport. -/
theorem updateUser_sent (env : Env) (cache : Cache) (userSettings callback : JSVal)
    (r : Response) (hcb : isFunction callback = true)
    (hsettings : truthy userSettings = true) (hobject : isObjectType userSettings = true)
    (hpseudonym : hasOwnProperty (updateUserDataToBeSent env userSettings) "pseudonym" = false
      ∨ truthy (getField (updateUserDataToBeSent env userSettings) "pseudonym") = true) :
    updateUser env cache userSettings callback (some r)
      = Outcome.done (updateUserHandler callback
          ⟨cache, [Event.jsonp (env.baseUrl ++ env.updateUserEndpoint)
            (updateUserDataToBeSent env userSettings)]⟩ r) := by
  rcases hpseudonym with h | h
  · simp [updateUser, hcb, hsettings, hobject, h, State.jsonp]
  · by_cases ho : hasOwnProperty (updateUserDataToBeSent env userSettings) "pseudonym" = true
    · simp [updateUser, hcb, hsettings, hobject, h, ho, State.jsonp]
    · simp [updateUser, hcb, hsettings, hobject, ho, State.jsonp]

/-- C14. Response taxonomy of `user.updateUser`. For every request that is sent (the
guards pass and the settings have no own `pseudonym` or a truthy one after trimming) and
every answer `(err, data)` of the transport, the trace is the `jsonp` call followed by
exactly one invocation of the callback: with `(err, null)`, the transport error
unchanged, if `err` is truthy; else with `(Error("No data received."), null)` if `data`
is empty; else with `(null, data)` if `data.status === "ok"`, whatever `data.error` is,
and only then; else with `({sudsError: true, error: data.error}, null)` if `data.error`
is truthy; else with `(Error("An error occured."), null)`. -/
theorem updateUser_taxonomy (env : Env) (cache : Cache) (userSettings callback : JSVal)
    (r : Response) (hcb : isFunction callback = true)
    (hsettings : truthy userSettings = true) (hobject : isObjectType userSettings = true)
    (hpseudonym : hasOwnProperty (updateUserDataToBeSent env userSettings) "pseudonym" = false
      ∨ truthy (getField (updateUserDataToBeSent env userSettings) "pseudonym") = true) :
    (∃ args : List JSVal,
      (updateUser env cache userSettings callback (some r)).trace
        = [Event.jsonp (env.baseUrl ++ env.updateUserEndpoint)
              (updateUserDataToBeSent env userSettings),
            Event.callback callback args])
    ∧ (truthy r.err = true →
        (updateUser env cache userSettings callback (some r)).callbacks
          = [Event.callback callback [r.err, JSVal.null]])
    ∧ (truthy r.err = false → truthy r.data = false →
        (updateUser env cache userSettings callback (some r)).callbacks
          = [Event.callback callback [JSVal.error "No data received.", JSVal.null]])
    ∧ (truthy r.err = false → truthy r.data = true →
        ((updateUser env cache userSettings callback (some r)).callbacks
            = [Event.callback callback [JSVal.null, r.data]]
          ↔ getField r.data "status" = JSVal.str "ok"))
    ∧ (truthy r.err = false → truthy r.data = true →
        getField r.data "status" ≠ JSVal.str "ok" → truthy (getField r.data "error") = true →
        (updateUser env cache userSettings callback (some r)).callbacks
          = [Event.callback callback
              [JSVal.obj [("sudsError", JSVal.bool true), ("error", getField r.data "error")],
                JSVal.null]])
    ∧ (truthy r.err = false → truthy r.data = true →
        getField r.data "status" ≠ JSVal.str "ok" → truthy (getField r.data "error") = false →
        (updateUser env cache userSettings callback (some r)).callbacks
          = [Event.callback callback [JSVal.error "An error occured.", JSVal.null]]) := by
  rw [updateUser_sent env cache userSettings callback r hcb hsettings hobject hpseudonym]
  refine ⟨?_, ?_, ?_, ?_, ?_, ?_⟩
  · simp only [updateUserHandler]
    split_ifs <;> exact ⟨_, rfl⟩
  · intro herr
    simp [updateUserHandler, herr, Outcome.done, Outcome.callbacks, State.invoke,
      Event.isCallback, Event.isJsonp]
  · intro herr hdata
    simp [updateUserHandler, herr, hdata, Outcome.done, Outcome.callbacks, State.invoke,
      Event.isCallback]
  · intro herr hdata
    by_cases hok : getField r.data "status" = JSVal.str "ok"
    · simp [updateUserHandler, herr, hdata, hok, Outcome.done, Outcome.callbacks, State.invoke,
        Event.isCallback]
    · by_cases he : truthy (getField r.data "error") = true
      · simp [updateUserHandler, herr, hdata, hok, he, Outcome.done, Outcome.callbacks,
          State.invoke, Event.isCallback]
      · simp [updateUserHandler, herr, hdata, hok, he, Outcome.done, Outcome.callbacks,
          State.invoke, Event.isCallback]
  · intro herr hdata hok he
    simp [updateUserHandler, herr, hdata, hok, he, Outcome.done, Outcome.callbacks,
      State.invoke, Event.isCallback]
  · intro herr hdata hok he
    simp [updateUserHandler, herr, hdata, hok, he, Outcome.done, Outcome.callbacks,
      State.invoke, Event.isCallback]

/-- Witness for C14: an answer with status `"ok"` that also carries an `error` field is
delivered as a success. -/
theorem updateUser_taxonomy_witness :
    (updateUser sampleEnv ⟨[], none⟩ (JSVal.obj [("emailcomments", JSVal.str "never")])
        (JSVal.func 0 2)
        (some ⟨JSVal.null,
          JSVal.obj [("status", JSVal.str "ok"), ("error", JSVal.str "ignored")]⟩)).callbacks
      = [Event.callback (JSVal.func 0 2)
          [JSVal.null,
            JSVal.obj [("status", JSVal.str "ok"), ("error", JSVal.str "ignored")]]] :=
  ((updateUser_taxonomy sampleEnv ⟨[], none⟩ (JSVal.obj [("emailcomments", JSVal.str "never")])
    (JSVal.func 0 2)
    ⟨JSVal.null, JSVal.obj [("status", JSVal.str "ok"), ("error", JSVal.str "ignored")]⟩
    (by decide) (by decide) (by decide) (Or.inl (by decide))).2.2.2.1 (by decide)
    (by decide)).mpr (by decide)

end Suds

namespace Suds
open JSVal

/-! ## Answers without the expected field -/

/-- The effects of `makeCall` of `getInitConfig` on an answer without error and without
a truthy `init`. -/
theorem initMakeCall_no_init (env : Env) (conf callback : JSVal) (c : Cache) (t : List Event)
    (r : Response) (herr : truthy r.err = false)
    (hinit : truthy r.data = false ∨ truthy (getField r.data "init") = false) :
    initMakeCall env conf callback ⟨c, t⟩ (some r)
      = ⟨c, t ++ [Event.jsonp (env.baseUrl ++ env.initEndpoint) (initDataToBeSent env conf),
          Event.callback callback
            [JSVal.error "No data received from SUDS.", JSVal.null]]⟩ := by
  rcases hinit with h | h <;>
    simp [initMakeCall, initHandler, herr, h, State.jsonp, State.invoke]

/-- C15 (as amended). Answers of the transport without error that lack the expected
field. For `getInitConfig` (guards passed, remote call made): when the answer is empty
or has no truthy `init`, the last effect is the callback invoked with
`(Error("No data received from SUDS."), null)`, nothing is thrown and the cache is
unchanged. For `getAuth` (callback resolved, remote call made): when the answer is
empty or has no truthy `token`, the callback is invoked once with `(null, data)`, the
answer as it is and no error, nothing is thrown, and with caching enabled the only cache
write is `removeAuth()`. -/
theorem missing_field_responses (env : Env) (cache : Cache) (r : Response)
    (herr : truthy r.err = false) :
    (∀ conf callback : JSVal, isFunction callback = true → truthy conf = true →
      (cacheEnabled env = false ∨ strictTrue (getField conf "force") = true
        ∨ truthy (cache.getInit (getField conf "articleId")) = false) →
      (truthy r.data = false ∨ truthy (getField r.data "init") = false) →
        (getInitConfig env cache conf callback (some r)).trace.getLast?
            = some (Event.callback callback
                [JSVal.error "No data received from SUDS.", JSVal.null])
          ∧ (getInitConfig env cache conf callback (some r)).thrown = none
          ∧ (getInitConfig env cache conf callback (some r)).cache = cache)
    ∧ (∀ confOrCallback callbackArg : JSVal,
      (isFunction confOrCallback = true ∨ isFunction callbackArg = true) →
      (cacheEnabled env = false ∨ truthy (cache.getAuth env.session) = false
        ∨ strictTrue (getField confOrCallback "force") = true) →
      (truthy r.data = false ∨ truthy (getField r.data "token") = false) →
        (getAuth env cache confOrCallback callbackArg (some r)).callbacks
            = [Event.callback
                (if isFunction confOrCallback then confOrCallback else callbackArg)
                [JSVal.null, r.data]]
          ∧ (getAuth env cache confOrCallback callbackArg (some r)).thrown = none
          ∧ (cacheEnabled env = true →
              (getAuth env cache confOrCallback callbackArg (some r)).cacheWrites
                = [Event.removeAuth])) := by
  constructor
  · intro conf callback hcb hconf hcall hinit
    rw [getInitConfig_makes_call env cache conf callback (some r) hcb hconf hcall,
      initMakeCall_no_init env conf callback cache _ r herr hinit]
    simp [Outcome.done]
  · intro confOrCallback callbackArg hcb hcall htoken
    rw [getAuth_makes_call env cache confOrCallback callbackArg (some r) hcb hcall]
    have hno : (truthy r.data && truthy (getField r.data "token")) = false := by
      rcases htoken with h | h <;> simp [h]
    by_cases hen : cacheEnabled env = true
    · have h := authMakeCall_success_enabled env
        (if isFunction confOrCallback then confOrCallback else callbackArg) cache r herr hen
      refine ⟨h.2.1, rfl, ?_⟩
      intro _
      have h3 := h.2.2
      simp only [hno] at h3
      simpa [Outcome.done, Outcome.cacheWrites] using h3
    · have hoff : cacheEnabled env = false := by simpa using hen
      have h := authMakeCall_success_disabled env
        (if isFunction confOrCallback then confOrCallback else callbackArg) cache r herr hoff
      refine ⟨?_, rfl, ?_⟩
      · simp [Outcome.done, Outcome.callbacks, h, Event.isCallback]
      · intro hen2
        exact absurd hen2 hen

/-- Witness for C15 (as amended): an empty answer to `getInitConfig` yields the
"no data received" error. -/
theorem missing_field_responses_witness :
    (getInitConfig sampleEnv ⟨[], none⟩
        (JSVal.obj [("articleId", JSVal.str "a1"), ("url", JSVal.str "u"),
          ("elId", JSVal.str "e"), ("title", JSVal.str "t")])
        (JSVal.func 0 2) (some ⟨JSVal.null, JSVal.undefined⟩)).trace.getLast?
      = some (Event.callback (JSVal.func 0 2)
          [JSVal.error "No data received from SUDS.", JSVal.null]) :=
  ((missing_field_responses sampleEnv ⟨[], none⟩ ⟨JSVal.null, JSVal.undefined⟩
    (by decide)).1
    (JSVal.obj [("articleId", JSVal.str "a1"), ("url", JSVal.str "u"),
      ("elId", JSVal.str "e"), ("title", JSVal.str "t")])
    (JSVal.func 0 2) (by decide) (by decide) (Or.inr (Or.inr (by decide)))
    (Or.inl (by decide))).1

/-- Counterexample to C15 as stated: `getAuth` answered without error by an object
that has no `token`, or by nothing at all, invokes the callback with `(null, data)`,
not with a "no data received" error. -/
theorem missing_field_responses_counterexample :
    (getAuth sampleEnv ⟨[], none⟩ (JSVal.obj []) (JSVal.func 0 2)
        (some ⟨JSVal.null, JSVal.obj [("servertime", JSVal.num 5)]⟩)).callbacks
      = [Event.callback (JSVal.func 0 2)
          [JSVal.null, JSVal.obj [("servertime", JSVal.num 5)]]]
    ∧ (getAuth sampleEnv ⟨[], none⟩ (JSVal.obj []) (JSVal.func 0 2)
        (some ⟨JSVal.null, JSVal.undefined⟩)).callbacks
      = [Event.callback (JSVal.func 0 2) [JSVal.null, JSVal.undefined]] := by
  refine ⟨?_, ?_⟩ <;> decide

/-! ## livefyre.getCommentCount -/

/-- C16. Result mapping of `livefyre.getCommentCount`, for a callable callback and any
article id. The trace is the error invocation of line 138 when the id is falsy, then
the `jsonp` call, then one invocation of the callback by the completion handler: with
`(err, null)`, the transport error unchanged, when `err` is truthy; and on an answer
without error, with `(null, data.count)` if and only if `data` is present and
`data.count` is not `undefined` (a count of `0` is delivered as a success), and with
`(Error("No data received from SUDS."), null)` in every other case. -/
theorem getCommentCount_mapping (env : Env) (cache : Cache) (articleId callback : JSVal)
    (r : Response) (hcb : isFunction callback = true) :
    (∃ args : List JSVal,
      (getCommentCount env cache articleId callback (some r)).trace
        = (if truthy articleId then []
            else [Event.callback callback [JSVal.error "Article ID not provided"]])
          ++ [Event.jsonp (env.baseUrl ++ env.commentCountEndpoint)
                (JSVal.obj [("articleId", articleId)]),
              Event.callback callback args])
    ∧ (truthy r.err = true →
        (getCommentCount env cache articleId callback (some r)).trace.getLast?
          = some (Event.callback callback [r.err, JSVal.null]))
    ∧ (truthy r.err = false →
        ((getCommentCount env cache articleId callback (some r)).trace.getLast?
            = some (Event.callback callback [JSVal.null, getField r.data "count"])
          ↔ (truthy r.data = true ∧ isUndefined (getField r.data "count") = false)))
    ∧ (truthy r.err = false →
        ¬ (truthy r.data = true ∧ isUndefined (getField r.data "count") = false) →
        (getCommentCount env cache articleId callback (some r)).trace.getLast?
          = some (Event.callback callback
              [JSVal.error "No data received from SUDS.", JSVal.null])) := by
  have hrun : getCommentCount env cache articleId callback (some r)
      = Outcome.done (commentCountHandler callback
          ⟨cache, (if truthy articleId then []
              else [Event.callback callback [JSVal.error "Article ID not provided"]])
            ++ [Event.jsonp (env.baseUrl ++ env.commentCountEndpoint)
                  (JSVal.obj [("articleId", articleId)])]⟩ r) := by
    by_cases ha : truthy articleId = true <;>
      simp [getCommentCount, hcb, ha, State.jsonp, State.invoke]
  rw [hrun]
  refine ⟨?_, ?_, ?_, ?_⟩
  · simp only [commentCountHandler, Outcome.done, State.invoke]
    split_ifs <;> exact ⟨_, rfl⟩
  · intro herr
    simp [commentCountHandler, herr, Outcome.done, State.invoke]
  · intro herr
    by_cases hd : truthy r.data = true
    · by_cases hc : isUndefined (getField r.data "count") = true
      · simp [commentCountHandler, herr, hd, hc, Outcome.done, State.invoke]
      · simp [commentCountHandler, herr, hd, hc, Outcome.done, State.invoke]
    · simp [commentCountHandler, herr, hd, Outcome.done, State.invoke]
  · intro herr hnot
    by_cases hd : truthy r.data = true
    · by_cases hc : isUndefined (getField r.data "count") = true
      · simp [commentCountHandler, herr, hd, hc, Outcome.done, State.invoke]
      · exact absurd ⟨hd, by simpa using hc⟩ hnot
    · simp [commentCountHandler, herr, hd, Outcome.done, State.invoke]

/-- Witness for C16: a count of `0` is a success. -/
theorem getCommentCount_mapping_witness :
    (getCommentCount sampleEnv ⟨[], none⟩ (JSVal.str "a1") (JSVal.func 0 2)
        (some ⟨JSVal.null, JSVal.obj [("count", JSVal.num 0)]⟩)).trace.getLast?
      = some (Event.callback (JSVal.func 0 2) [JSVal.null, JSVal.num 0]) :=
  ((getCommentCount_mapping sampleEnv ⟨[], none⟩ (JSVal.str "a1") (JSVal.func 0 2)
    ⟨JSVal.null, JSVal.obj [("count", JSVal.num 0)]⟩ (by decide)).2.2.1 (by decide)).mpr
    ⟨by decide, by decide⟩

end Suds

namespace Suds
open JSVal

/-! ## Calling conventions of user.getAuth -/

/-- C17. The calling conventions of `user.getAuth` are equivalent: for every callable
callback, every session state, cache state and answer of the transport, the call
`getAuth(callback)` (whatever stands in second position) has the same outcome, that is
the same cache afterwards, the same trace of remote calls, cache writes and callback
invocations, and the same exception status, as `getAuth(conf, callback)` for every
configuration object `conf` whose `force` is not `true`, `{}` among them. -/
theorem getAuth_conventions (env : Env) (cache : Cache) (callback second : JSVal)
    (fields : List (String × JSVal)) (response : Option Response)
    (hcb : isFunction callback = true)
    (hforce : getField (JSVal.obj fields) "force" ≠ JSVal.bool true) :
    getAuth env cache callback second response
        = getAuth env cache (JSVal.obj fields) callback response
    ∧ getAuth env cache callback second response
        = getAuth env cache (JSVal.obj []) callback response := by
  have hgen : ∀ fs : List (String × JSVal),
      getField (JSVal.obj fs) "force" ≠ JSVal.bool true →
      getAuth env cache callback second response
        = getAuth env cache (JSVal.obj fs) callback response := by
    intro fs hfs
    have hf := strictTrue_eq_false _ hfs
    cases callback with
    | func id arity =>
        have h1 : isFunction (JSVal.obj fs) = false := rfl
        have h2 : isNullish (JSVal.obj fs) = false := rfl
        have h3 : isNullish (JSVal.func id arity) = false := rfl
        have h4 : strictTrue (getField (JSVal.func id arity) "force") = false := by
          simp [getField, strictTrue]
        simp only [getAuth, hcb, h1, h2, h3, h4, hf]
        simp
    | _ => simp [isFunction] at hcb
  exact ⟨hgen fields hforce, hgen [] (by decide)⟩

/-- Witness for C17: with an AuthResult cached both conventions deliver it. -/
theorem getAuth_conventions_witness :
    getAuth sampleEnv ⟨[], some (JSVal.obj [("token", JSVal.str "t")])⟩ (JSVal.func 0 2)
        JSVal.undefined none
      = getAuth sampleEnv ⟨[], some (JSVal.obj [("token", JSVal.str "t")])⟩ (JSVal.obj [])
          (JSVal.func 0 2) none :=
  (getAuth_conventions sampleEnv ⟨[], some (JSVal.obj [("token", JSVal.str "t")])⟩
    (JSVal.func 0 2) JSVal.undefined [] none (by decide) (by decide)).2

end Suds

namespace Suds
open JSVal

/-! ## Validation in livefyre.getInitConfig -/

/-- The events of the validation statements: one error invocation per missing own
field, in the order `articleId`, `url`, `elId`, `title`. -/
theorem initValidate_trace (conf callback : JSVal) :
    (initValidate conf callback ⟨⟨[], none⟩, []⟩).trace
      = ([("articleId", "Article ID not provided"), ("url", "Article URL not provided"),
            ("elId", "Element ID not provided"),
            ("title", "Article title not provided")].filter
            (fun p => !hasOwnProperty conf p.1)).map
          (fun p => Event.callback callback [JSVal.error p.2]) := by
  simp only [initValidate]
  split_ifs <;> simp_all [State.invoke, List.filter]

/-- Through `makeCall`, an answer of the transport brings exactly one more invocation
of the callback. -/
theorem initMakeCall_callbacks (env : Env) (conf callback : JSVal) (c : Cache)
    (t : List Event) (r : Response) :
    ∃ args : List JSVal,
      (initMakeCall env conf callback ⟨c, t⟩ (some r)).trace.filter Event.isCallback
        = t.filter Event.isCallback ++ [Event.callback callback args] := by
  by_cases herr : truthy r.err = true
  · refine ⟨[r.err, JSVal.null], ?_⟩
    simp [initMakeCall, initHandler, herr, State.jsonp, State.invoke, Event.isCallback]
  · by_cases hinit : (truthy r.data && truthy (getField r.data "init")) = true
    · refine ⟨[JSVal.null, getField r.data "init"], ?_⟩
      have herr2 : truthy r.err = false := by simpa using herr
      simp only [initMakeCall, initHandler, herr2, hinit, Bool.false_eq_true, if_false, if_true]
      split_ifs <;>
        simp [State.jsonp, State.invoke, State.cacheInit, State.cacheAuth, State.removeAuth,
          Event.isCallback]
    · refine ⟨[JSVal.error "No data received from SUDS.", JSVal.null], ?_⟩
      simp [initMakeCall, initHandler, herr, hinit, State.jsonp, State.invoke,
        Event.isCallback]

/-- The trace of `makeCall` extends the trace it starts from. -/
theorem initMakeCall_frame (env : Env) (conf callback : JSVal) (c : Cache) (t : List Event)
    (response : Option Response) :
    (initMakeCall env conf callback ⟨c, t⟩ response).trace
      = t ++ (initMakeCall env conf callback ⟨c, []⟩ response).trace := by
  cases response with
  | none => simp [initMakeCall, State.jsonp]
  | some r =>
      simp only [initMakeCall, initHandler]
      split_ifs <;>
        simp [State.jsonp, State.invoke, State.cacheInit, State.cacheAuth, State.removeAuth]

/-- C18. Validation in `livefyre.getInitConfig` does not fail fast. For every truthy
configuration and callable callback, with `k` the number of the own fields `articleId`,
`url`, `elId`, `title` the configuration lacks: nothing is thrown and the trace starts
with `k` invocations of the callback, one descriptive error per missing field, in the
order `articleId`, `url`, `elId`, `title`; the operation then still goes on. When it is
served from the cache it issues no remote call and the callback is invoked `k + 1`
times in total; when it makes the remote call it issues exactly one `jsonp` call, and
once the transport has answered the callback has been invoked `k + 1` times in total
(`k` times as long as it has not). -/
theorem getInitConfig_validation (env : Env) (cache : Cache) (conf callback : JSVal)
    (hcb : isFunction callback = true) (hconf : truthy conf = true) :
    (∀ response : Option Response,
      (getInitConfig env cache conf callback response).thrown = none
      ∧ ∃ rest : List Event,
          (getInitConfig env cache conf callback response).trace
            = ([("articleId", "Article ID not provided"), ("url", "Article URL not provided"),
                  ("elId", "Element ID not provided"),
                  ("title", "Article title not provided")].filter
                  (fun p => !hasOwnProperty conf p.1)).map
                (fun p => Event.callback callback [JSVal.error p.2])
              ++ rest)
    ∧ (cacheEnabled env = true → strictTrue (getField conf "force") = false →
        truthy (cache.getInit (getField conf "articleId")) = true →
        ∀ response : Option Response,
          (getInitConfig env cache conf callback response).remoteCalls = []
          ∧ (getInitConfig env cache conf callback response).callbacks.length
            = (["articleId", "url", "elId", "title"].filter
                (fun f => !hasOwnProperty conf f)).length + 1)
    ∧ ((cacheEnabled env = false ∨ strictTrue (getField conf "force") = true
          ∨ truthy (cache.getInit (getField conf "articleId")) = false) →
        (∀ response : Option Response,
          (getInitConfig env cache conf callback response).remoteCalls
            = [Event.jsonp (env.baseUrl ++ env.initEndpoint) (initDataToBeSent env conf)])
        ∧ (∀ r : Response,
            (getInitConfig env cache conf callback (some r)).callbacks.length
              = (["articleId", "url", "elId", "title"].filter
                  (fun f => !hasOwnProperty conf f)).length + 1)
        ∧ (getInitConfig env cache conf callback none).callbacks.length
            = (["articleId", "url", "elId", "title"].filter
                (fun f => !hasOwnProperty conf f)).length) := by
  have hlen : (initValidate conf callback ⟨⟨[], none⟩, []⟩).trace.length
      = (["articleId", "url", "elId", "title"].filter
          (fun f => !hasOwnProperty conf f)).length := by
    simp only [initValidate]
    split_ifs <;> simp_all [State.invoke, List.filter]
  have hvc := initValidate_trace_filter_isCallback conf callback
  have hvj := initValidate_trace_filter_isJsonp conf callback ⟨⟨[], none⟩, []⟩
  simp only [List.filter_nil] at hvj
  refine ⟨?_, ?_, ?_⟩
  · intro response
    by_cases hcall : cacheEnabled env = false ∨ strictTrue (getField conf "force") = true
        ∨ truthy (cache.getInit (getField conf "articleId")) = false
    · rw [getInitConfig_makes_call env cache conf callback response hcb hconf hcall]
      refine ⟨rfl, ?_⟩
      rw [← initValidate_trace conf callback]
      exact ⟨_, initMakeCall_frame env conf callback cache _ response⟩
    · have hen : cacheEnabled env = true := by
        by_cases h : cacheEnabled env = true
        · exact h
        · exact absurd (Or.inl (by simpa using h)) hcall
      have hf : strictTrue (getField conf "force") = false := by
        by_cases h : strictTrue (getField conf "force") = true
        · exact absurd (Or.inr (Or.inl h)) hcall
        · simpa using h
      have hhit : truthy (cache.getInit (getField conf "articleId")) = true := by
        by_cases h : truthy (cache.getInit (getField conf "articleId")) = true
        · exact h
        · exact absurd (Or.inr (Or.inr (by simpa using h))) hcall
      rw [getInitConfig_serves_cache env cache conf callback response hcb hconf hen hf hhit]
      refine ⟨rfl, ?_⟩
      rw [← initValidate_trace conf callback]
      exact ⟨_, rfl⟩
  · intro hen hf hhit response
    rw [getInitConfig_serves_cache env cache conf callback response hcb hconf hen hf hhit]
    constructor
    · simp [Outcome.remoteCalls, hvj, Event.isJsonp]
    · simp [Outcome.callbacks, hvc, Event.isCallback, hlen]
  · intro hcall
    refine ⟨?_, ?_, ?_⟩
    · intro response
      rw [getInitConfig_makes_call env cache conf callback response hcb hconf hcall]
      simp [Outcome.done, Outcome.remoteCalls, initMakeCall_trace_filter_isJsonp, hvj]
    · intro r
      rw [getInitConfig_makes_call env cache conf callback (some r) hcb hconf hcall]
      obtain ⟨args, hargs⟩ := initMakeCall_callbacks env conf callback cache
        (initValidate conf callback ⟨⟨[], none⟩, []⟩).trace r
      simp [Outcome.done, Outcome.callbacks, hargs, hvc, hlen]
    · rw [getInitConfig_makes_call env cache conf callback none hcb hconf hcall]
      simp [Outcome.done, Outcome.callbacks, initMakeCall, State.jsonp, hvc, hlen,
        Event.isCallback]

/-- Witness for C18: a configuration with only `url` lacks three fields; the callback
is invoked with the three errors in order and then with the `init` payload, four times
in total. -/
theorem getInitConfig_validation_witness :
    (getInitConfig sampleEnv ⟨[], none⟩ (JSVal.obj [("url", JSVal.str "u")]) (JSVal.func 0 2)
        (some ⟨JSVal.null, JSVal.obj [("init", JSVal.obj [])]⟩)).callbacks.length
      = 3 + 1 :=
  ((getInitConfig_validation sampleEnv ⟨[], none⟩ (JSVal.obj [("url", JSVal.str "u")])
    (JSVal.func 0 2) (by decide) (by decide)).2.2 (Or.inr (Or.inr (by decide)))).2.1
    ⟨JSVal.null, JSVal.obj [("init", JSVal.obj [])]⟩

end Suds

namespace Suds
open JSVal

/-! ## The number of batches of livefyre.getCommentCounts -/

/-- With base length below 1000 and ids of length `idLength ≥ 1`, a bundle reaches 1000
exactly when it holds `⌈(1000 - baseLength) / idLength⌉` ids. -/
theorem perBundle_spec (baseLength idLength : Nat) (hbase : baseLength < 1000)
    (hid : 1 ≤ idLength) :
    1 ≤ (1000 - baseLength + idLength - 1) / idLength
    ∧ 1000 ≤ baseLength + (1000 - baseLength + idLength - 1) / idLength * idLength
    ∧ ∀ count : Nat, count < (1000 - baseLength + idLength - 1) / idLength →
        baseLength + count * idLength < 1000 := by
  have hdm := Nat.div_add_mod (1000 - baseLength + idLength - 1) idLength
  have hmod := Nat.mod_lt (1000 - baseLength + idLength - 1) (Nat.lt_of_lt_of_le Nat.zero_lt_one hid)
  rw [Nat.mul_comm] at hdm
  have hfull : 1000 ≤ baseLength + (1000 - baseLength + idLength - 1) / idLength * idLength := by
    omega
  refine ⟨?_, hfull, ?_⟩
  · rcases Nat.eq_zero_or_pos ((1000 - baseLength + idLength - 1) / idLength) with h | h
    · rw [h] at hfull
      omega
    · exact h
  · intro count hcount
    have hle : (count + 1) * idLength
        ≤ (1000 - baseLength + idLength - 1) / idLength * idLength :=
      Nat.mul_le_mul_right idLength hcount
    rw [Nat.add_mul] at hle
    omega

theorem uniformInv_nil (baseLength idLength perBundle : Nat) :
    UniformInv baseLength idLength perBundle [] 0 :=
  Or.inl ⟨rfl, rfl⟩

/-- One pass of the loop body over an id of length `idLength` keeps the count
invariant. -/
theorem uniformInv_addArticleId (strLen : JSVal → Nat) (baseLength idLength perBundle : Nat)
    (bundles : List Bundle) (processed : Nat) (articleId : JSVal)
    (hper : 1 ≤ perBundle)
    (hfull : 1000 ≤ baseLength + perBundle * idLength)
    (hroom : ∀ count : Nat, count < perBundle → baseLength + count * idLength < 1000)
    (hlen : strLen articleId = idLength)
    (h : UniformInv baseLength idLength perBundle bundles processed) :
    UniformInv baseLength idLength perBundle
      (addArticleId strLen baseLength bundles articleId) (processed + 1) := by
  rcases h with ⟨hp, hb⟩ | ⟨full, b, count, hb, h1, h2, hsize, hp⟩
  · subst hb
    rw [addArticleId_nil]
    refine Or.inr ⟨[], _, 1, rfl, Nat.le_refl 1, hper, ?_, ?_⟩
    · simp [hlen]
    · simp [hp]
  · subst hb
    by_cases hc : count = perBundle
    · have hcap : 1000 ≤ b.size := by rw [hsize, hc]; exact hfull
      rw [addArticleId_full _ _ _ _ _ hcap]
      refine Or.inr ⟨full ++ [b], _, 1, rfl, Nat.le_refl 1, hper, ?_, ?_⟩
      · simp [hlen]
      · rw [hp, hc]
        simp [Nat.add_mul]
    · have hlt : count < perBundle := Nat.lt_of_le_of_ne h2 hc
      have hsmall : b.size < 1000 := by rw [hsize]; exact hroom count hlt
      rw [addArticleId_room _ _ _ _ _ hsmall]
      refine Or.inr ⟨full, _, count + 1, rfl, Nat.le_add_left 1 count, hlt, ?_, ?_⟩
      · simp only [hsize, hlen, Nat.add_mul, Nat.one_mul]
        omega
      · rw [hp]
        omega

theorem uniformInv_foldl (strLen : JSVal → Nat) (baseLength idLength perBundle : Nat)
    (hper : 1 ≤ perBundle)
    (hfull : 1000 ≤ baseLength + perBundle * idLength)
    (hroom : ∀ count : Nat, count < perBundle → baseLength + count * idLength < 1000)
    (articleIds : List JSVal) :
    ∀ (bundles : List Bundle) (processed : Nat),
      (∀ id ∈ articleIds, strLen id = idLength) →
      UniformInv baseLength idLength perBundle bundles processed →
      UniformInv baseLength idLength perBundle
        (articleIds.foldl (addArticleId strLen baseLength) bundles)
        (processed + articleIds.length) := by
  induction articleIds with
  | nil => intro bundles processed _ h; simpa using h
  | cons a rest ih =>
      intro bundles processed hlen h
      have h1 := uniformInv_addArticleId strLen baseLength idLength perBundle bundles processed a
        hper hfull hroom (hlen a (List.mem_cons_self a rest)) h
      have h2 := ih _ _ (fun id hid => hlen id (List.mem_cons_of_mem a hid)) h1
      have he : processed + 1 + rest.length = processed + (a :: rest).length := by
        simp only [List.length_cons]
        omega
      rw [he] at h2
      simpa using h2

/-- The number of bundles for `n ≥ 1` ids of one length is `⌈n / perBundle⌉`. -/
theorem length_of_uniformInv (baseLength idLength perBundle : Nat) (bundles : List Bundle)
    (processed : Nat) (hpos : 1 ≤ processed)
    (h : UniformInv baseLength idLength perBundle bundles processed) :
    bundles.length = (processed + perBundle - 1) / perBundle := by
  rcases h with ⟨hp, _⟩ | ⟨full, b, count, hb, h1, h2, _, hp⟩
  · omega
  · subst hb
    have hk : (full.length + 1) * perBundle = full.length * perBundle + perBundle := by
      rw [Nat.add_mul, Nat.one_mul]
    have hk2 : (full.length + 1 + 1) * perBundle
        = full.length * perBundle + perBundle + perBundle := by
      rw [Nat.add_mul, Nat.one_mul, hk]
    have hdiv : (processed + perBundle - 1) / perBundle = full.length + 1 := by
      apply Nat.div_eq_of_lt_le
      · rw [hk]; omega
      · rw [hk2]; omega
    rw [hdiv]
    simp

theorem length_flatten_of_singletons (bundles : List Bundle)
    (h : ∀ b ∈ bundles, b.articles.length = 1) :
    ((bundles.map Bundle.articles).flatten).length = bundles.length := by
  induction bundles with
  | nil => rfl
  | cons b rest ih =>
      have hb := h b (List.mem_cons_self b rest)
      have hr := ih (fun x hx => h x (List.mem_cons_of_mem b hx))
      simp only [List.map_cons, List.flatten_cons, List.length_append, List.length_cons, hb, hr]
      omega

/-- C19. Number of batch calls of `livefyre.getCommentCounts`. For `n ≥ 1` ids whose
stringified lengths all equal `L ≥ 1` and a base URL length `B < 1000`, the number of
bundles is `⌈n / ⌈(1000 - B) / L⌉⌉` (the ceilings written with truncating division).
For `B ≥ 1000` and any ids, every bundle holds exactly one id and there are `n`
bundles. For a non-empty array of ids (none `null` or `undefined`) and a callable
callback, `getCommentCounts` issues as many remote calls as there are bundles. -/
theorem getCommentCounts_batch_count (strLen : JSVal → Nat) (baseLength idLength : Nat)
    (articleIds : List JSVal) :
    (baseLength < 1000 → 1 ≤ idLength → articleIds ≠ [] →
      (∀ id ∈ articleIds, strLen id = idLength) →
      (bundleArticleIds strLen baseLength articleIds).length
        = (articleIds.length + (1000 - baseLength + idLength - 1) / idLength - 1)
            / ((1000 - baseLength + idLength - 1) / idLength))
    ∧ (1000 ≤ baseLength →
      (∀ b ∈ bundleArticleIds strLen baseLength articleIds, b.articles.length = 1)
      ∧ (bundleArticleIds strLen baseLength articleIds).length = articleIds.length)
    ∧ (∀ (env : Env) (cache : Cache) (callback : JSVal) (report : Option Response),
      isFunction callback = true → articleIds ≠ [] →
      (∀ id ∈ articleIds, isNullish id = false) →
      (getCommentCounts env cache (JSVal.arr articleIds) callback report).remoteCalls.length
        = (bundleArticleIds env.toStringLength
            (jsLength (env.baseUrl ++ env.commentCountsEndpoint)) articleIds).length) := by
  refine ⟨?_, ?_, ?_⟩
  · intro hbase hid hne hlen
    obtain ⟨hper, hfull, hroom⟩ := perBundle_spec baseLength idLength hbase hid
    have h := uniformInv_foldl strLen baseLength idLength
      ((1000 - baseLength + idLength - 1) / idLength) hper hfull hroom articleIds [] 0 hlen
      (uniformInv_nil _ _ _)
    rw [Nat.zero_add] at h
    have hpos : 1 ≤ articleIds.length := by
      cases articleIds with
      | nil => exact absurd rfl hne
      | cons a rest => simp
    exact length_of_uniformInv baseLength idLength _ _ _ hpos h
  · intro hbase
    obtain ⟨hne, hcat, _, _, hpre⟩ := bundlesInv_bundleArticleIds strLen baseLength articleIds
    have hone : ∀ b ∈ bundleArticleIds strLen baseLength articleIds, b.articles.length = 1 := by
      intro b hb
      have h1 : b.articles.length ≠ 0 := by
        intro h0
        exact hne b hb (List.length_eq_zero.mp h0)
      have h2 : ¬ 1 < b.articles.length := by
        intro hgt
        have := hpre b hb hgt
        omega
      omega
    refine ⟨hone, ?_⟩
    have hl := length_flatten_of_singletons _ hone
    rw [hcat] at hl
    exact hl.symm
  · intro env cache callback report hcb hne hids
    rw [getCommentCounts_array env cache articleIds callback report hcb hne hids]
    cases report with
    | none =>
        simp [Outcome.done, Outcome.remoteCalls, countsFanOut_eq, filter_isJsonp_map_jsonp]
    | some r =>
        obtain ⟨args, hargs⟩ := countsHandler_eq env callback
          (countsFanOut (env.baseUrl ++ env.commentCountsEndpoint)
            (bundleArticleIds env.toStringLength
              (jsLength (env.baseUrl ++ env.commentCountsEndpoint)) articleIds)
            ⟨cache, []⟩) r
        simp only [Outcome.done, Outcome.remoteCalls, hargs]
        simp [countsFanOut_eq, filter_isJsonp_map_jsonp, Event.isJsonp]

/-- Witness for C19: seven ids of length 300 with base length 100 go three to a bundle,
hence three bundles. -/
theorem getCommentCounts_batch_count_witness :
    (bundleArticleIds (fun _ => 300) 100
        [JSVal.num 1, JSVal.num 2, JSVal.num 3, JSVal.num 4, JSVal.num 5, JSVal.num 6,
          JSVal.num 7]).length
      = (7 + (1000 - 100 + 300 - 1) / 300 - 1) / ((1000 - 100 + 300 - 1) / 300)
    ∧ (7 + (1000 - 100 + 300 - 1) / 300 - 1) / ((1000 - 100 + 300 - 1) / 300) = 3 :=
  ⟨(getCommentCounts_batch_count (fun _ => 300) 100 300
      [JSVal.num 1, JSVal.num 2, JSVal.num 3, JSVal.num 4, JSVal.num 5, JSVal.num 6,
        JSVal.num 7]).1 (by decide) (by decide) (by decide) (fun _ _ => rfl),
    by decide⟩

end Suds

namespace Suds
open JSVal

/-! ## Totality of user.getAuth -/

/-- C20 (as amended). `user.getAuth` once a callback is resolved. If the first argument
is not `null` or `undefined` (a configuration object or a function), or caching is
disabled, or no truthy AuthResult is cached, then `getAuth` does not throw, and it either
issues exactly one remote call or issues none and delivers the cached AuthResult with
`(null, cached)`. If the first argument is `null` or `undefined`, caching is enabled and
a truthy AuthResult is cached, it throws before any effect. -/
theorem getAuth_total (env : Env) (cache : Cache) (confOrCallback callbackArg : JSVal)
    (response : Option Response)
    (hcb : isFunction confOrCallback = true ∨ isFunction callbackArg = true) :
    ((isNullish confOrCallback = false ∨ cacheEnabled env = false
        ∨ truthy (cache.getAuth env.session) = false) →
      (getAuth env cache confOrCallback callbackArg response).thrown = none
      ∧ ((getAuth env cache confOrCallback callbackArg response).remoteCalls
            = [Event.jsonp (env.baseUrl ++ env.getAuthEndpoint) (authDataToBeSent env)]
        ∨ ((getAuth env cache confOrCallback callbackArg response).remoteCalls = []
          ∧ (getAuth env cache confOrCallback callbackArg response).trace
            = [Event.callback
                (if isFunction confOrCallback then confOrCallback else callbackArg)
                [JSVal.null, cache.getAuth env.session]])))
    ∧ (isNullish confOrCallback = true → cacheEnabled env = true →
        truthy (cache.getAuth env.session) = true →
        (getAuth env cache confOrCallback callbackArg response).thrown ≠ none
        ∧ (getAuth env cache confOrCallback callbackArg response).trace = []) := by
  have hres : isFunction (if isFunction confOrCallback then confOrCallback else callbackArg)
      = true := by
    rcases hcb with h | h
    · simp [h]
    · by_cases h2 : isFunction confOrCallback = true <;> simp [h2, h]
  constructor
  · intro hsafe
    by_cases hcall : cacheEnabled env = false ∨ truthy (cache.getAuth env.session) = false
        ∨ strictTrue (getField confOrCallback "force") = true
    · rw [getAuth_makes_call env cache confOrCallback callbackArg response hcb hcall]
      refine ⟨rfl, Or.inl ?_⟩
      simp [Outcome.done, Outcome.remoteCalls, authMakeCall_trace_filter_isJsonp]
    · have hen : cacheEnabled env = true := by
        by_cases h : cacheEnabled env = true
        · exact h
        · exact absurd (Or.inl (by simpa using h)) hcall
      have hhit : truthy (cache.getAuth env.session) = true := by
        by_cases h : truthy (cache.getAuth env.session) = true
        · exact h
        · exact absurd (Or.inr (Or.inl (by simpa using h))) hcall
      have hf : strictTrue (getField confOrCallback "force") = false := by
        by_cases h : strictTrue (getField confOrCallback "force") = true
        · exact absurd (Or.inr (Or.inr h)) hcall
        · simpa using h
      have hnn : isNullish confOrCallback = false := by
        rcases hsafe with h | h | h
        · exact h
        · rw [hen] at h; cases h
        · rw [hhit] at h; cases h
      have hrun : getAuth env cache confOrCallback callbackArg response
          = Outcome.done (State.invoke ⟨cache, []⟩
              (if isFunction confOrCallback then confOrCallback else callbackArg)
              [JSVal.null, cache.getAuth env.session]) := by
        simp [getAuth, hres, hen, hhit, hnn, hf]
      rw [hrun]
      refine ⟨rfl, Or.inr ?_⟩
      simp [Outcome.done, Outcome.remoteCalls, State.invoke, Event.isJsonp]
  · intro hnull hen hhit
    have hrun : getAuth env cache confOrCallback callbackArg response
        = Outcome.throw ⟨cache, []⟩ "TypeError: cannot read property force" := by
      simp [getAuth, hres, hen, hhit, hnull]
    rw [hrun]
    simp [Outcome.throw]

/-- Witness for C20 (as amended): `getAuth(undefined, callback)` in an anonymous
session issues its one remote call. -/
theorem getAuth_total_witness :
    (getAuth { sampleEnv with session := JSVal.null }
        ⟨[], some (JSVal.obj [("token", JSVal.str "t")])⟩ JSVal.undefined (JSVal.func 0 2)
        none).thrown = none :=
  ((getAuth_total { sampleEnv with session := JSVal.null }
    ⟨[], some (JSVal.obj [("token", JSVal.str "t")])⟩ JSVal.undefined (JSVal.func 0 2) none
    (Or.inr (by decide))).1 (Or.inr (Or.inl (by decide)))).1

/-- Counterexample to C20 as stated: with caching enabled and an AuthResult cached,
`getAuth(null, callback)` and `getAuth(undefined, callback)` throw on reading
`confOrCallback.force`, without a remote call and without delivering the cached
value. -/
theorem getAuth_total_counterexample :
    getAuth sampleEnv ⟨[], some (JSVal.obj [("token", JSVal.str "t")])⟩ JSVal.null
        (JSVal.func 0 2) none
      = ⟨⟨[], some (JSVal.obj [("token", JSVal.str "t")])⟩, [],
          some "TypeError: cannot read property force"⟩
    ∧ getAuth sampleEnv ⟨[], some (JSVal.obj [("token", JSVal.str "t")])⟩ JSVal.undefined
        (JSVal.func 0 2) none
      = ⟨⟨[], some (JSVal.obj [("token", JSVal.str "t")])⟩, [],
          some "TypeError: cannot read property force"⟩ := by
  refine ⟨?_, ?_⟩ <;> decide

end Suds
